import Mathlib

/-!
Shallow embedding of the attendease backend's payroll and leave core
(`services/payrollService.ts`, `services/leaveService.ts`, and the mongoose
schemas in `models/`), together with theorems checking the natural-language
specification against it.

Conventions:
* JS numbers are modelled as rationals (`ℚ`); `Math.round` is `⌊x + 1/2⌋`
  (JS rounds halves toward +∞).
* A JS `Date` is a timestamp `Ts`: a calendar day number (days since
  1970-01-01, as produced by Howard Hinnant's civil-from-days algorithm)
  plus the milliseconds elapsed within that day.  `date-fns`'s `startOfDay`
  zeroes the intra-day part; `Date` comparisons compare total milliseconds.
* Mongo collections are lists of rows; `findOne` is `List.find?` (first
  match in insertion order), `updateMany`/`save` rewrite rows in place.
* Typed errors (`NotFoundError`, `BadRequestError`, `ConflictError` from
  `utils/AppError`, and the leave service's distinct `Error` messages) are
  modelled as inductive error codes.  The spec's taxonomy maps
  `BadRequestError` and the leave service's validation messages to
  "Validation", and its conflict-style messages to "Conflict".
-/

namespace Attendease

/-- JS `Math.round`: nearest integer, halves toward +∞. -/
def jsRound (x : ℚ) : ℤ := ⌊x + 1/2⌋

/-- Computes `Math.round(x * 100) / 100` — round to 2 decimal places as the payroll
service does. -/
def round2 (x : ℚ) : ℚ := (jsRound (x * 100) : ℚ) / 100

/-! ## Calendar model -/

/-- Milliseconds in a day. -/
def msPerDay : ℤ := 86400000

/-- A JS `Date`: calendar day number plus milliseconds within the day. -/
structure Ts where
  day : ℤ
  ms : ℤ
deriving DecidableEq

/-- Total milliseconds since the epoch; JS `Date` comparison compares this. -/
def Ts.toMs (t : Ts) : ℤ := t.day * msPerDay + t.ms

/-- Models `date-fns` `startOfDay`: zero the intra-day time. -/
def startOfDay (t : Ts) : Ts := ⟨t.day, 0⟩

/-- A timestamp whose intra-day milliseconds are in range. -/
def Ts.valid (t : Ts) : Prop := 0 ≤ t.ms ∧ t.ms < msPerDay

instance (t : Ts) : Decidable (Ts.valid t) :=
  inferInstanceAs (Decidable (0 ≤ t.ms ∧ t.ms < msPerDay))

instance : BEq Ts := ⟨fun a b => decide (a = b)⟩

/-- Gregorian leap year (JS `Date` calendar). -/
def isLeapYear (y : ℤ) : Bool := y % 4 == 0 && (y % 100 != 0 || y % 400 == 0)

/-- Number of days in a calendar month (`m` in 1..12). -/
def daysInMonth (y : ℤ) (m : ℕ) : ℕ :=
  if m = 2 then (if isLeapYear y then 29 else 28)
  else if m = 4 ∨ m = 6 ∨ m = 9 ∨ m = 11 then 30
  else 31

/-- Day number of the civil date `y-m-d` (days since 1970-01-01, Hinnant's
`days_from_civil`; `/` on `ℤ` is Euclidean division, which for the positive
divisors used here is floor division). -/
def daysFromCivil (y : ℤ) (m d : ℕ) : ℤ :=
  let yAdj : ℤ := y - (if m ≤ 2 then 1 else 0)
  let era : ℤ := yAdj / 400
  let yoe : ℤ := yAdj - era * 400
  let mp : ℤ := if 2 < m then (m : ℤ) - 3 else (m : ℤ) + 9
  let doy : ℤ := (153 * mp + 2) / 5 + (d : ℤ) - 1
  let doe : ℤ := yoe * 365 + yoe / 4 - yoe / 100 + doy
  era * 146097 + doe - 719468

/-- Calendar year containing a given day number (Hinnant's
`civil_from_days`, year component); models JS `Date.getFullYear`. -/
def yearOfDay (z0 : ℤ) : ℤ :=
  let z : ℤ := z0 + 719468
  let era : ℤ := z / 146097
  let doe : ℤ := z - era * 146097
  let yoe : ℤ := (doe - doe / 1460 + doe / 36524 - doe / 146096) / 365
  let y : ℤ := yoe + era * 400
  let doy : ℤ := doe - (365 * yoe + yoe / 4 - yoe / 100)
  let mp : ℤ := (5 * doy + 2) / 153
  let m : ℤ := mp + (if mp < 10 then 3 else -9)
  y + (if m ≤ 2 then 1 else 0)

/-- JS `Date.getDay` of a day number: 0 = Sunday … 6 = Saturday
(1970-01-01 was a Thursday). -/
def weekdayJS (z : ℤ) : ℤ := (z + 4) % 7

/-- Models `date-fns` `isWeekend`. -/
def isWeekendDay (z : ℤ) : Bool := weekdayJS z == 0 || weekdayJS z == 6

/-- Models `date-fns` `eachDayOfInterval` on day numbers: all days from `s` to `e`
inclusive (the library yields each day at midnight). -/
def eachDayOfInterval (s e : ℤ) : List ℤ :=
  List.map (fun i : ℕ => s + (i : ℤ)) (List.range (e + 1 - s).toNat)

/-- First instant of month `m` of year `y` (`date-fns` `startOfMonth`). -/
def monthStartTs (y : ℤ) (m : ℕ) : Ts := ⟨daysFromCivil y m 1, 0⟩

/-- Last millisecond of month `m` of year `y` (`date-fns` `endOfMonth`). -/
def monthEndTs (y : ℤ) (m : ℕ) : Ts := ⟨daysFromCivil y m (daysInMonth y m), msPerDay - 1⟩

/-! ## Data model (mongoose schemas) -/

/-- The `'fixed' | 'percentage'` salary component kind. -/
inductive CompType
  | fixed
  | percentage
deriving DecidableEq

/-- An allowance line of a salary structure (`models/SalaryStructure.ts`). -/
structure Allowance where
  name : String
  amount : ℚ
  type : CompType
deriving DecidableEq

/-- A deduction line of a salary structure (`models/SalaryStructure.ts`). -/
structure Deduction where
  name : String
  amount : ℚ
  type : CompType
deriving DecidableEq

/-- A `SalaryStructure` row. -/
structure SalaryStructureRow where
  organizationId : String
  userId : String
  baseSalary : ℚ
  allowances : List Allowance
  deductions : List Deduction
  effectiveFrom : Ts
  isActive : Bool
  createdBy : String
deriving DecidableEq

/-- A `User` row, restricted to the fields the payroll core reads. -/
structure UserRow where
  id : String
  organizationId : String
  isActive : Bool
deriving DecidableEq

/-- Enum `AttendanceStatus` (`models/Attendance.ts`). -/
inductive AttendanceStatus
  | present
  | late
  | absent
  | half_day
  | on_leave
deriving DecidableEq

/-- An `Attendance` row, restricted to the fields the payroll/leave core
touches. -/
structure AttendanceRow where
  organizationId : String
  userId : String
  date : Ts
  status : AttendanceStatus
  isApproved : Bool
deriving DecidableEq

/-- Enum `LeaveType` (`models/Leave.ts`). -/
inductive LeaveType
  | sick
  | casual
  | vacation
  | unpaid
deriving DecidableEq

/-- Enum `LeaveStatus` (`models/Leave.ts`). -/
inductive LeaveStatus
  | pending
  | approved
  | rejected
  | cancelled
deriving DecidableEq

/-- A `Leave` row. -/
structure LeaveRow where
  id : String
  organizationId : String
  userId : String
  leaveType : LeaveType
  startDate : Ts
  endDate : Ts
  totalDays : ℚ
  reason : String
  status : LeaveStatus
  reviewedBy : Option String
  reviewedAt : Option ℤ
  reviewNotes : Option String
deriving DecidableEq

/-- One paid-leave bucket of a `LeaveBalance` row. -/
structure LeaveTypeBalance where
  total : ℚ
  used : ℚ
  remaining : ℚ
deriving DecidableEq

/-- A `LeaveBalance` row (`unpaidLeave` has only `used`). -/
structure LeaveBalanceRow where
  organizationId : String
  userId : String
  year : ℤ
  sickLeave : LeaveTypeBalance
  casualLeave : LeaveTypeBalance
  vacationLeave : LeaveTypeBalance
  unpaidLeaveUsed : ℚ
deriving DecidableEq

/-- A `Holiday` row, restricted to the fields the calendar resolver reads. -/
structure HolidayRow where
  organizationId : String
  date : Ts
deriving DecidableEq

/-- Enum `PayrollRunStatus` (`models/PayrollRun.ts`). -/
inductive PayrollRunStatus
  | draft
  | processing
  | completed
  | cancelled
deriving DecidableEq

/-- A `PayrollRun` row. -/
structure PayrollRunRow where
  id : String
  organizationId : String
  month : ℕ
  year : ℤ
  status : PayrollRunStatus
  processedBy : Option String
  totalGrossSalary : ℚ
  totalDeductions : ℚ
  totalNetSalary : ℚ
  employeeCount : ℕ
deriving DecidableEq

/-- Enum `PayrollRecordStatus` (`models/PayrollRecord.ts`). -/
inductive PayrollRecordStatus
  | pending
  | paid
  | on_hold
deriving DecidableEq

/-- A `PayrollRecord` row as created by `processPayrollRun`. -/
structure PayrollRecordRow where
  organizationId : String
  payrollRunId : String
  userId : String
  month : ℕ
  year : ℤ
  workingDays : ℕ
  daysWorked : ℚ
  leaveDays : ℚ
  absentDays : ℚ
  baseSalary : ℚ
  allowances : List Allowance
  deductions : List Deduction
  grossSalary : ℚ
  totalDeductions : ℚ
  netSalary : ℚ
  status : PayrollRecordStatus
deriving DecidableEq

/-- Typed errors thrown by the payroll service (`utils/AppError`); the spec's
taxonomy reads `badRequest` as Validation. -/
inductive PayrollErr
  | notFound
  | badRequest
  | conflict
deriving DecidableEq

/-! ## Payroll service: salary arithmetic (`payrollService.calculateGrossSalary`,
`payrollService.calculateTotalDeductions`) -/

/-- Embeds `payrollService.calculateGrossSalary`: start from the base salary, add
each allowance (fixed amount, or percentage of the base argument), round the
final sum to 2 decimals. -/
def calculateGrossSalary (baseSalary : ℚ) (allowances : List Allowance) : ℚ :=
  let gross := allowances.foldl
    (fun g a =>
      match a.type with
      | .fixed => g + a.amount
      | .percentage => g + baseSalary * a.amount / 100)
    baseSalary
  round2 gross

/-- Embeds `payrollService.calculateTotalDeductions`: sum each deduction (fixed
amount, or percentage of the gross salary), round to 2 decimals.  The second
parameter is unused in the source and kept for fidelity. -/
def calculateTotalDeductions (grossSalary : ℚ) (unusedBase : ℚ)
    (deductions : List Deduction) : ℚ :=
  let total := deductions.foldl
    (fun t d =>
      match d.type with
      | .fixed => t + d.amount
      | .percentage => t + grossSalary * d.amount / 100)
    0
  round2 (let _ := unusedBase; total)

/-! ## Payroll service: working-day calendar (`payrollService.calculateWorkingDays`) -/

/-- The Mongo query filter of `calculateWorkingDays`: holidays of the
organization whose stored timestamp lies between the first and the last
millisecond of the month. -/
def holidayInMonthQuery (organizationId : String) (y : ℤ) (m : ℕ) (h : HolidayRow) : Bool :=
  h.organizationId == organizationId
    && (monthStartTs y m).toMs ≤ h.date.toMs
    && h.date.toMs ≤ (monthEndTs y m).toMs

/-- Embeds `payrollService.calculateWorkingDays`: enumerate every day of the month,
drop weekends, drop days whose calendar date (`toDateString`) equals a fetched
holiday's calendar date. -/
def payrollCalculateWorkingDays (month : ℕ) (year : ℤ) (organizationId : String)
    (holidayColl : List HolidayRow) : ℕ :=
  let s := daysFromCivil year month 1
  let e := daysFromCivil year month (daysInMonth year month)
  let allDays := eachDayOfInterval s e
  let holidays := holidayColl.filter (holidayInMonthQuery organizationId year month)
  let holidayDates := holidays.map (fun h => h.date.day)
  (allDays.filter (fun day => !isWeekendDay day && !holidayDates.contains day)).length

/-! ## Payroll service: salary structure registry -/

/-- Input shape `CreateSalaryStructureData` (optional lists default to `[]` at the call
site via `data.allowances || []`). -/
structure CreateSalaryStructureData where
  userId : String
  baseSalary : ℚ
  allowances : Option (List Allowance)
  deductions : Option (List Deduction)
  effectiveFrom : Ts
deriving DecidableEq

/-- Input shape `UpdateSalaryStructureData`: every field optional; omitted fields are
merged from the current structure (`??` in the source). -/
structure UpdateSalaryStructureData where
  baseSalary : Option ℚ
  allowances : Option (List Allowance)
  deductions : Option (List Deduction)
  effectiveFrom : Option Ts
deriving DecidableEq

/-- Embeds `payrollService.createSalaryStructure`: require an active user of the
organization, deactivate every active structure of that user
(`updateMany`), then insert the new active row. -/
def createSalaryStructure (users : List UserRow) (structures : List SalaryStructureRow)
    (organizationId : String) (data : CreateSalaryStructureData) (createdByUserId : String) :
    Except PayrollErr (List SalaryStructureRow × SalaryStructureRow) :=
  match users.find? (fun u =>
      u.id == data.userId && u.organizationId == organizationId && u.isActive) with
  | none => .error .notFound
  | some _ =>
    let deactivated := structures.map (fun s =>
      if s.organizationId == organizationId && s.userId == data.userId && s.isActive
      then { s with isActive := false } else s)
    let row : SalaryStructureRow :=
      { organizationId := organizationId
        userId := data.userId
        baseSalary := data.baseSalary
        allowances := data.allowances.getD []
        deductions := data.deductions.getD []
        effectiveFrom := data.effectiveFrom
        isActive := true
        createdBy := createdByUserId }
    .ok (deactivated ++ [row], row)

/-- Models `findOne` + `save` with `isActive := false`: deactivate the first active
structure of the user in collection order, leaving the rest untouched. -/
def deactivateFirstActive (organizationId userId : String) :
    List SalaryStructureRow → List SalaryStructureRow
  | [] => []
  | s :: rest =>
    if s.organizationId == organizationId && s.userId == userId && s.isActive
    then { s with isActive := false } :: rest
    else s :: deactivateFirstActive organizationId userId rest

/-- Embeds `payrollService.updateSalaryStructure`: find the active structure
(Not-Found if none), deactivate it, insert a new active row merging omitted
fields from the old one and defaulting `effectiveFrom` to `now`. -/
def updateSalaryStructure (structures : List SalaryStructureRow)
    (organizationId userId : String) (data : UpdateSalaryStructureData)
    (updatedByUserId : String) (now : Ts) :
    Except PayrollErr (List SalaryStructureRow × SalaryStructureRow) :=
  match structures.find? (fun s =>
      s.organizationId == organizationId && s.userId == userId && s.isActive) with
  | none => .error .notFound
  | some current =>
    let deactivated := deactivateFirstActive organizationId userId structures
    let row : SalaryStructureRow :=
      { organizationId := organizationId
        userId := userId
        baseSalary := data.baseSalary.getD current.baseSalary
        allowances := data.allowances.getD current.allowances
        deductions := data.deductions.getD current.deductions
        effectiveFrom := data.effectiveFrom.getD now
        isActive := true
        createdBy := updatedByUserId }
    .ok (deactivated ++ [row], row)

/-! ## Payroll service: run creation (`payrollService.createPayrollRun`) -/

/-- Embeds `payrollService.createPayrollRun`: Conflict if a run for the same
(organization, month, year) exists, else insert a Draft run whose aggregate
totals take the schema defaults (all zero). -/
def createPayrollRun (runs : List PayrollRunRow) (organizationId : String)
    (month : ℕ) (year : ℤ) (newId : String) :
    Except PayrollErr (List PayrollRunRow × PayrollRunRow) :=
  match runs.find? (fun r =>
      r.organizationId == organizationId && r.month == month && r.year == year) with
  | some _ => .error .conflict
  | none =>
    let run : PayrollRunRow :=
      { id := newId
        organizationId := organizationId
        month := month
        year := year
        status := .draft
        processedBy := none
        totalGrossSalary := 0
        totalDeductions := 0
        totalNetSalary := 0
        employeeCount := 0 }
    .ok (runs ++ [run], run)

/-! ## Payroll service: per-employee computation inside `processPayrollRun` -/

/-- The `Attendance.countDocuments` query of `processPayrollRun`: the user's
attendance rows of the month with status present, late or half-day. -/
def attendanceDaysFor (att : List AttendanceRow) (organizationId userId : String)
    (year : ℤ) (month : ℕ) : ℕ :=
  (att.filter (fun a =>
    a.organizationId == organizationId && a.userId == userId
      && (monthStartTs year month).toMs ≤ a.date.toMs
      && a.date.toMs ≤ (monthEndTs year month).toMs
      && (a.status == .present || a.status == .late || a.status == .half_day))).length

/-- The `Leave.find` + summation of `processPayrollRun`: total `totalDays`
over the user's approved leaves overlapping the month
(`startDate ≤ monthEnd ∧ monthStart ≤ endDate`). -/
def leaveDaysFor (leaves : List LeaveRow) (organizationId userId : String)
    (year : ℤ) (month : ℕ) : ℚ :=
  ((leaves.filter (fun l =>
    l.organizationId == organizationId && l.userId == userId
      && l.status == .approved
      && l.startDate.toMs ≤ (monthEndTs year month).toMs
      && (monthStartTs year month).toMs ≤ l.endDate.toMs)).map (fun l => l.totalDays)).sum

/-- The loop body of `processPayrollRun` for one salary structure: attendance
and leave lookups, proration, gross/deduction/net arithmetic, and the
`PayrollRecord` snapshot it creates. -/
def computeEmployeeRecord (runId : String) (month : ℕ) (year : ℤ) (workingDays : ℕ)
    (s : SalaryStructureRow) (att : List AttendanceRow) (leaves : List LeaveRow) :
    PayrollRecordRow :=
  let attendanceDays := attendanceDaysFor att s.organizationId s.userId year month
  let leaveDays := leaveDaysFor leaves s.organizationId s.userId year month
  let daysWorked : ℚ := (attendanceDays : ℚ) + leaveDays
  let absentDays : ℚ := (workingDays : ℚ) - daysWorked
  let effectiveBaseSalary : ℚ :=
    if 0 < absentDays then s.baseSalary / (workingDays : ℚ) * daysWorked
    else s.baseSalary
  let grossSalary := calculateGrossSalary effectiveBaseSalary s.allowances
  let totalDeductions := calculateTotalDeductions grossSalary effectiveBaseSalary s.deductions
  let netSalary := grossSalary - totalDeductions
  { organizationId := s.organizationId
    payrollRunId := runId
    userId := s.userId
    month := month
    year := year
    workingDays := workingDays
    daysWorked := daysWorked
    leaveDays := leaveDays
    absentDays := absentDays
    baseSalary := effectiveBaseSalary
    allowances := s.allowances
    deductions := s.deductions
    grossSalary := grossSalary
    totalDeductions := totalDeductions
    netSalary := netSalary
    status := .pending }

/-- One iteration of the employee loop including its guard: the populated
user must exist and be active, otherwise the structure is skipped
(`continue`) and no record is produced. -/
def processEmployeeStep (users : List UserRow) (runId : String) (month : ℕ) (year : ℤ)
    (workingDays : ℕ) (s : SalaryStructureRow) (att : List AttendanceRow)
    (leaves : List LeaveRow) : Option PayrollRecordRow :=
  match users.find? (fun u => u.id == s.userId) with
  | none => none
  | some user =>
    if !user.isActive then none
    else some (computeEmployeeRecord runId month year workingDays s att leaves)

/-! ## Payroll service: run state machine (`payrollService.processPayrollRun`)

The guards, the status writes and the rollback of `processPayrollRun` are
embedded with the body of the `try` block (steps 3–4: working-day
computation, the employee loop and its record inserts) abstracted as an
`Except` value: the body either yields the accumulated totals or throws.
The second component of the result is the sequence of run statuses persisted
by `payrollRun.save()`, in order. -/

/-- Accumulated totals of the employee loop. -/
structure RunTotals where
  gross : ℚ
  deductions : ℚ
  net : ℚ
  count : ℕ
deriving DecidableEq

/-- Embeds the `payrollService.processPayrollRun` control flow (body abstracted as
`compute`). -/
def processPayrollRun (runs : List PayrollRunRow) (organizationId payrollRunId : String)
    (processedByUserId : String) (compute : Except PayrollErr RunTotals) :
    Except PayrollErr PayrollRunRow × List PayrollRunStatus :=
  match runs.find? (fun r => r.id == payrollRunId && r.organizationId == organizationId) with
  | none => (.error .notFound, [])
  | some run =>
    if run.status == .completed then (.error .badRequest, [])
    else if run.status == .cancelled then (.error .badRequest, [])
    else
      match compute with
      | .error e =>
        (.error e, [.processing, .draft])
      | .ok t =>
        let done : PayrollRunRow :=
          { run with
            status := .completed
            processedBy := some processedByUserId
            totalGrossSalary := t.gross
            totalDeductions := t.deductions
            totalNetSalary := t.net
            employeeCount := t.count }
        (.ok done, [.processing, .completed])

/-! ## Leave service (`leaveService.ts`) -/

/-- Errors thrown by the leave service.  The source throws plain `Error`s
with distinct messages; each constructor stands for one message.  In the
spec's taxonomy `endBeforeStart`, `noWorkingDay`, `notPending` and
`insufficientBalance` are Validation, `overlap` is Conflict, `notFound` is
Not-Found, and `requiredOrganizationIdMissing` is the mongoose validation
error raised when `Attendance.create` is called without the schema-required
`organizationId`. -/
inductive LeaveErr
  | notFound
  | notPending
  | endBeforeStart
  | noWorkingDay
  | overlap
  | insufficientBalance
  | requiredOrganizationIdMissing
deriving DecidableEq

/-- The leave/balance/attendance collections the leave service touches. -/
structure LeaveDB where
  leaves : List LeaveRow
  balances : List LeaveBalanceRow
  attendance : List AttendanceRow
deriving DecidableEq

/-- Embeds `leaveService.calculateWorkingDays`: weekday (Mon–Fri) count of the
inclusive day interval. -/
def leaveCalculateWorkingDays (startDay endDay : ℤ) : ℕ :=
  ((eachDayOfInterval startDay endDay).filter (fun d => !isWeekendDay d)).length

/-- The `pre('save')` hook of `LeaveBalanceSchema`: recompute `remaining`
of each paid bucket before every persist. -/
def leaveBalanceSaveHook (b : LeaveBalanceRow) : LeaveBalanceRow :=
  { b with
    sickLeave := { b.sickLeave with remaining := b.sickLeave.total - b.sickLeave.used }
    casualLeave := { b.casualLeave with remaining := b.casualLeave.total - b.casualLeave.used }
    vacationLeave := { b.vacationLeave with remaining := b.vacationLeave.total - b.vacationLeave.used } }

/-- The default allocations used when a balance is created lazily. -/
def defaultLeaveBalance (userId : String) (year : ℤ) (organizationId : String) :
    LeaveBalanceRow :=
  { organizationId := organizationId
    userId := userId
    year := year
    sickLeave := { total := 10, used := 0, remaining := 10 }
    casualLeave := { total := 12, used := 0, remaining := 12 }
    vacationLeave := { total := 15, used := 0, remaining := 15 }
    unpaidLeaveUsed := 0 }

/-- Embeds `leaveService.getOrCreateLeaveBalance`: find the row for
(user, year, organization) or create it with the default allocations
(`LeaveBalance.create` runs the save hook).  Returns the updated collection
and the row. -/
def getOrCreateLeaveBalance (balances : List LeaveBalanceRow)
    (userId : String) (year : ℤ) (organizationId : String) :
    List LeaveBalanceRow × LeaveBalanceRow :=
  match balances.find? (fun b =>
      b.userId == userId && b.year == year && b.organizationId == organizationId) with
  | some b => (balances, b)
  | none =>
    let b := leaveBalanceSaveHook (defaultLeaveBalance userId year organizationId)
    (balances ++ [b], b)

/-- Embeds `leaveService.checkBalance`: unpaid leave is unlimited; otherwise the
matching bucket's `remaining` must cover the requested days. -/
def checkBalance (balance : LeaveBalanceRow) (leaveType : LeaveType) (days : ℚ) : Bool :=
  match leaveType with
  | .unpaid => true
  | .sick => days ≤ balance.sickLeave.remaining
  | .casual => days ≤ balance.casualLeave.remaining
  | .vacation => days ≤ balance.vacationLeave.remaining

/-- Embeds `leaveService.requestLeave`.  Returns the thrown error or the created
leave, together with the final state of the collections (a thrown error
never rolls back earlier writes; the lazily created balance persists). -/
def requestLeave (db : LeaveDB) (userId organizationId : String) (leaveType : LeaveType)
    (startDate endDate : Ts) (reason : String) (newId : String) :
    Except LeaveErr LeaveRow × LeaveDB :=
  let start := startOfDay startDate
  let stop := startOfDay endDate
  if stop.toMs < start.toMs then (.error .endBeforeStart, db)
  else
    let totalDays := leaveCalculateWorkingDays start.day stop.day
    if totalDays = 0 then (.error .noWorkingDay, db)
    else if db.leaves.any (fun l =>
        l.userId == userId && l.organizationId == organizationId
          && (l.status == .pending || l.status == .approved)
          && l.startDate.toMs ≤ stop.toMs && start.toMs ≤ l.endDate.toMs) then
      (.error .overlap, db)
    else
      let year := yearOfDay start.day
      let (balances1, balance) := getOrCreateLeaveBalance db.balances userId year organizationId
      if !checkBalance balance leaveType (totalDays : ℚ) then
        (.error .insufficientBalance, { db with balances := balances1 })
      else
        let leave : LeaveRow :=
          { id := newId
            organizationId := organizationId
            userId := userId
            leaveType := leaveType
            startDate := start
            endDate := stop
            totalDays := (totalDays : ℚ)
            reason := reason
            status := .pending
            reviewedBy := none
            reviewedAt := none
            reviewNotes := none }
        (.ok leave, { db with leaves := db.leaves ++ [leave], balances := balances1 })

/-- Models `Attendance.create` as called from `approveLeave`: mongoose validates the
document against the schema, whose `organizationId` is required — a call
without it rejects.  The call site passes only `userId`, `date`, `status`,
`isApproved`. -/
def attendanceCreate (organizationId : Option String) (userId : String) (date : Ts)
    (status : AttendanceStatus) (isApproved : Bool) (att : List AttendanceRow) :
    Except LeaveErr (List AttendanceRow) :=
  match organizationId with
  | none => .error .requiredOrganizationIdMissing
  | some org => .ok (att ++ [{ organizationId := org, userId := userId, date := date,
                               status := status, isApproved := isApproved }])

/-- Models `existingAttendance.status = ON_LEAVE; save()`: update the first row
matching the `findOne` filter, touching only `status`. -/
def setAttendanceOnLeave (userId : String) (date : Ts) :
    List AttendanceRow → List AttendanceRow
  | [] => []
  | a :: rest =>
    if a.userId == userId && a.date == date
    then { a with status := .on_leave } :: rest
    else a :: setAttendanceOnLeave userId date rest

/-- The attendance loop of `approveLeave`: for each weekday of the leave,
update the existing row for that user/day (the `findOne` filter has no
`organizationId`), or create a new one — which fails schema validation
because the call omits the required `organizationId`.  An error aborts the
loop, keeping the rows already written. -/
def markLeaveDays (userId : String) (days : List ℤ) (att : List AttendanceRow) :
    Except LeaveErr Unit × List AttendanceRow :=
  match days with
  | [] => (.ok (), att)
  | d :: rest =>
    let dayStart : Ts := ⟨d, 0⟩
    match att.find? (fun a => a.userId == userId && a.date == dayStart) with
    | some _ => markLeaveDays userId rest (setAttendanceOnLeave userId dayStart att)
    | none =>
      match attendanceCreate none userId dayStart .on_leave true att with
      | .error e => (.error e, att)
      | .ok att1 => markLeaveDays userId rest att1

/-- Apply the balance mutation of `approveLeave`: bump `used` of the bucket
matching the leave type and recompute that bucket's `remaining` (the unpaid
bucket has no `remaining`). -/
def bumpBalance (b : LeaveBalanceRow) (leaveType : LeaveType) (days : ℚ) :
    LeaveBalanceRow :=
  match leaveType with
  | .unpaid => { b with unpaidLeaveUsed := b.unpaidLeaveUsed + days }
  | .sick =>
    let used := b.sickLeave.used + days
    { b with sickLeave := { b.sickLeave with used := used, remaining := b.sickLeave.total - used } }
  | .casual =>
    let used := b.casualLeave.used + days
    { b with casualLeave := { b.casualLeave with used := used, remaining := b.casualLeave.total - used } }
  | .vacation =>
    let used := b.vacationLeave.used + days
    { b with vacationLeave := { b.vacationLeave with used := used, remaining := b.vacationLeave.total - used } }

/-- Models `balance.save()`: persist a mutated balance row back into the collection
(replace the row for the same (user, year, organization) key), running the
schema's save hook. -/
def persistBalance (balances : List LeaveBalanceRow) (b : LeaveBalanceRow) :
    List LeaveBalanceRow :=
  balances.map (fun x =>
    if x.userId == b.userId && x.year == b.year && x.organizationId == b.organizationId
    then leaveBalanceSaveHook b else x)

/-- Models `leave.save()`: persist the reviewed leave back into the collection. -/
def persistLeave (leaves : List LeaveRow) (l : LeaveRow) : List LeaveRow :=
  leaves.map (fun x => if x.id == l.id then l else x)

/-- Embeds `leaveService.approveLeave`.  Returns the thrown error or the approved
leave, together with the final collections; an error thrown mid-way keeps
every write already performed (no transaction). -/
def approveLeave (db : LeaveDB) (leaveId reviewerId : String) (notes : Option String)
    (now : ℤ) : Except LeaveErr LeaveRow × LeaveDB :=
  match db.leaves.find? (fun l => l.id == leaveId) with
  | none => (.error .notFound, db)
  | some leave =>
    if leave.status != .pending then (.error .notPending, db)
    else
      let year := yearOfDay leave.startDate.day
      let (balances1, balance) :=
        getOrCreateLeaveBalance db.balances leave.userId year leave.organizationId
      let balance1 := bumpBalance balance leave.leaveType leave.totalDays
      let balances2 := persistBalance balances1 balance1
      let leaveDays := (eachDayOfInterval leave.startDate.day leave.endDate.day).filter
        (fun d => !isWeekendDay d)
      match markLeaveDays leave.userId leaveDays db.attendance with
      | (.error e, att1) =>
        (.error e, { db with balances := balances2, attendance := att1 })
      | (.ok _, att1) =>
        let leave1 : LeaveRow :=
          { leave with
            status := .approved
            reviewedBy := some reviewerId
            reviewedAt := some now
            reviewNotes := notes }
        (.ok leave1,
          { leaves := persistLeave db.leaves leave1, balances := balances2, attendance := att1 })

/-! ## Spec-side definitions and theorems

The definitions suffixed `Spec` below transcribe sentences of the
specification (not the source); each claim theorem relates them to the
embedded source functions. -/

/-- Spec: the contribution of one allowance — "its amount if fixed or
`effectiveBaseSalary * amount / 100` if percentage". -/
def allowanceTermSpec (effectiveBaseSalary : ℚ) (a : Allowance) : ℚ :=
  match a.type with
  | .fixed => a.amount
  | .percentage => effectiveBaseSalary * a.amount / 100

/-- Spec: the contribution of one deduction — "each percentage deduction
taken as a percentage of grossSalary". -/
def deductionTermSpec (grossSalary : ℚ) (d : Deduction) : ℚ :=
  match d.type with
  | .fixed => d.amount
  | .percentage => grossSalary * d.amount / 100

/-- Spec: a stored timestamp lies in month `m` of year `y` by calendar
date (not by raw timestamp). -/
def inMonthSpec (y : ℤ) (m : ℕ) (t : Ts) : Bool :=
  daysFromCivil y m 1 ≤ t.day && t.day ≤ daysFromCivil y m (daysInMonth y m)

/-- Spec: "attendanceDays is the count of that user's Attendance rows in the
month with status Present, Late, or HalfDay". -/
def attendanceDaysSpec (att : List AttendanceRow) (organizationId userId : String)
    (y : ℤ) (m : ℕ) : ℕ :=
  att.countP (fun a =>
    a.organizationId == organizationId && a.userId == userId
      && inMonthSpec y m a.date
      && (a.status == .present || a.status == .late || a.status == .half_day))

/-- Spec: "leaveDays is the sum of totalDays over the user's Approved leaves
overlapping the month" (overlap by calendar date). -/
def leaveDaysSpec (leaves : List LeaveRow) (organizationId userId : String)
    (y : ℤ) (m : ℕ) : ℚ :=
  ((leaves.filter (fun l =>
    l.organizationId == organizationId && l.userId == userId
      && l.status == .approved
      && l.startDate.day ≤ daysFromCivil y m (daysInMonth y m)
      && daysFromCivil y m 1 ≤ l.endDate.day)).map (fun l => l.totalDays)).sum

/-- Spec: "totalDays = count of weekdays (Mon–Fri) in [start, end]
inclusive" (Sunday is 0 and Saturday is 6 in JS day numbering). -/
def weekdayCountSpec (s e : ℤ) : ℕ :=
  (eachDayOfInterval s e).countP (fun d => decide (weekdayJS d ≠ 0 ∧ weekdayJS d ≠ 6))

/-- Spec: the `remaining` of the bucket matching a paid leave type (unpaid
leave has no bucket with a remaining). -/
def remainingFor (b : LeaveBalanceRow) : LeaveType → ℚ
  | .sick => b.sickLeave.remaining
  | .casual => b.casualLeave.remaining
  | .vacation => b.vacationLeave.remaining
  | .unpaid => 0

/-- C5 claim transcribed: normalize both dates to start of day; Validation
when end < start; `totalDays` = weekday count, Validation when zero;
Conflict when a Pending/Approved leave of the user overlaps; fetch-or-create
the balance for start's year and Validation unless the type is unpaid or
`remaining ≥ totalDays`; otherwise insert the leave with status Pending. -/
def requestLeaveSpec (db : LeaveDB) (userId organizationId : String) (leaveType : LeaveType)
    (startDate endDate : Ts) (reason : String) (newId : String) :
    Except LeaveErr LeaveRow × LeaveDB :=
  let start := startOfDay startDate
  let stop := startOfDay endDate
  if stop.toMs < start.toMs then (.error .endBeforeStart, db)
  else
    let totalDays := weekdayCountSpec start.day stop.day
    if totalDays = 0 then (.error .noWorkingDay, db)
    else if db.leaves.any (fun l =>
        l.userId == userId && l.organizationId == organizationId
          && (l.status == .pending || l.status == .approved)
          && l.startDate.toMs ≤ stop.toMs && start.toMs ≤ l.endDate.toMs) then
      (.error .overlap, db)
    else
      let (balances1, balance) :=
        getOrCreateLeaveBalance db.balances userId (yearOfDay start.day) organizationId
      if leaveType = .unpaid ∨ (totalDays : ℚ) ≤ remainingFor balance leaveType then
        let leave : LeaveRow :=
          { id := newId
            organizationId := organizationId
            userId := userId
            leaveType := leaveType
            startDate := start
            endDate := stop
            totalDays := (totalDays : ℚ)
            reason := reason
            status := .pending
            reviewedBy := none
            reviewedAt := none
            reviewNotes := none }
        (.ok leave, { db with leaves := db.leaves ++ [leave], balances := balances1 })
      else (.error .insufficientBalance, { db with balances := balances1 })

/-- The structures of a user that answer an "active structures" query. -/
def activeStructuresFor (structures : List SalaryStructureRow)
    (organizationId userId : String) : List SalaryStructureRow :=
  structures.filter (fun s =>
    s.organizationId == organizationId && s.userId == userId && s.isActive)

/-- C6 invariant: at most one `isActive` structure per (organization, user). -/
def uniqueActiveInvariant (structures : List SalaryStructureRow) : Prop :=
  ∀ organizationId userId, (activeStructuresFor structures organizationId userId).length ≤ 1

/-- The runs of one (organization, month, year) period. -/
def runsForPeriod (runs : List PayrollRunRow) (organizationId : String)
    (m : ℕ) (y : ℤ) : List PayrollRunRow :=
  runs.filter (fun r => r.organizationId == organizationId && r.month == m && r.year == y)

/-- C7 invariant: at most one payroll run per (organization, month, year). -/
def uniqueRunInvariant (runs : List PayrollRunRow) : Prop :=
  ∀ organizationId m y, (runsForPeriod runs organizationId m y).length ≤ 1

/-- C9 invariant: in each paid bucket, `remaining = total - used`. -/
def balancedBuckets (b : LeaveBalanceRow) : Prop :=
  b.sickLeave.remaining = b.sickLeave.total - b.sickLeave.used ∧
  b.casualLeave.remaining = b.casualLeave.total - b.casualLeave.used ∧
  b.vacationLeave.remaining = b.vacationLeave.total - b.vacationLeave.used

/-- The days of month `m` of year `y`. -/
def monthDays (y : ℤ) (m : ℕ) : List ℤ :=
  eachDayOfInterval (daysFromCivil y m 1) (daysFromCivil y m (daysInMonth y m))

/-- Spec: the calendar dates of the organization's holidays falling within
the month. -/
def holidayDaysSpec (coll : List HolidayRow) (organizationId : String)
    (y : ℤ) (m : ℕ) : List ℤ :=
  (coll.filter (fun h => h.organizationId == organizationId && inMonthSpec y m h.date)).map
    (fun h => h.date.day)

/-- C8 claim transcribed: the days of the month that are neither Saturday
nor Sunday nor equal, by calendar date, to an organization holiday in the
month. -/
def workingDaysSpec (month : ℕ) (year : ℤ) (organizationId : String)
    (coll : List HolidayRow) : ℕ :=
  ((monthDays year month).filter (fun d =>
    !isWeekendDay d && !(holidayDaysSpec coll organizationId year month).contains d)).length

/-- Weekend days of the month. -/
def weekendCount (y : ℤ) (m : ℕ) : ℕ :=
  (monthDays y m).countP (fun d => isWeekendDay d)

/-- Days of the month that are holiday dates of the organization. -/
def holidaysInMonthCount (coll : List HolidayRow) (organizationId : String)
    (y : ℤ) (m : ℕ) : ℕ :=
  (monthDays y m).countP (fun d => (holidayDaysSpec coll organizationId y m).contains d)

/-! ### Concrete fixtures used by the example-based statements -/

/-- The spec's worked example: base 3000, one fixed allowance of 500, one
10% deduction. -/
def exampleStructure : SalaryStructureRow :=
  { organizationId := "o"
    userId := "u"
    baseSalary := 3000
    allowances := [{ name := "HRA", amount := 500, type := .fixed }]
    deductions := [{ name := "Tax", amount := 10, type := .percentage }]
    effectiveFrom := ⟨0, 0⟩
    isActive := true
    createdBy := "c" }

/-- Fifteen present days in January 2025 for the example employee. -/
def exampleAttendance : List AttendanceRow :=
  (List.range 15).map (fun i =>
    { organizationId := "o"
      userId := "u"
      date := ⟨daysFromCivil 2025 1 (i + 1), 0⟩
      status := .present
      isApproved := true })

/-- A pending three-weekday leave, Monday 2025-01-06 to Wednesday
2025-01-08. -/
def pendingLeaveJan : LeaveRow :=
  { id := "L1"
    organizationId := "o"
    userId := "u1"
    leaveType := .sick
    startDate := ⟨daysFromCivil 2025 1 6, 0⟩
    endDate := ⟨daysFromCivil 2025 1 8, 0⟩
    totalDays := 3
    reason := "flu"
    status := .pending
    reviewedBy := none
    reviewedAt := none
    reviewNotes := none }

/-- State holding only that pending leave: no balances, no attendance. -/
def dbWithPendingLeave : LeaveDB :=
  { leaves := [pendingLeaveJan], balances := [], attendance := [] }

/-- Pre-existing, not-approved attendance rows for the three leave days. -/
def attendanceJan678 : List AttendanceRow :=
  [{ organizationId := "o", userId := "u1", date := ⟨daysFromCivil 2025 1 6, 0⟩,
     status := .present, isApproved := false },
   { organizationId := "o", userId := "u1", date := ⟨daysFromCivil 2025 1 7, 0⟩,
     status := .present, isApproved := false },
   { organizationId := "o", userId := "u1", date := ⟨daysFromCivil 2025 1 8, 0⟩,
     status := .present, isApproved := false }]

/-- The pending leave together with existing attendance rows for its days. -/
def dbWithPendingLeaveAndAttendance : LeaveDB :=
  { leaves := [pendingLeaveJan], balances := [], attendance := attendanceJan678 }

/-- A single Holiday row: New Year's Day 2025 (a Wednesday). -/
def exampleHolidays : List HolidayRow :=
  [{ organizationId := "o", date := ⟨daysFromCivil 2025 1 1, 0⟩ }]

/-- An active user and structure for the zero-working-days scenario. -/
def zeroDayUsers : List UserRow := [{ id := "u1", organizationId := "o", isActive := true }]

/-- A plain salary structure for the zero-working-days scenario. -/
def zeroDayStructure : SalaryStructureRow :=
  { organizationId := "o", userId := "u1", baseSalary := 3000, allowances := [],
    deductions := [], effectiveFrom := ⟨0, 0⟩, isActive := true, createdBy := "c" }

/-- Folding `+ f a` over a list adds the sum of the mapped terms. -/
theorem foldl_add_map {α : Type} (f : α → ℚ) :
    ∀ (l : List α) (init : ℚ),
      l.foldl (fun g a => g + f a) init = init + (l.map f).sum := by
  intro l
  induction l with
  | nil => intro init; simp
  | cons a t ih =>
    intro init
    simp only [List.foldl_cons, List.map_cons, List.sum_cons, ih]
    ring

/-- Shows `calculateGrossSalary` is the rounded sum of the base and the spec's
allowance terms. -/
theorem calculateGrossSalary_eq (base : ℚ) (l : List Allowance) :
    calculateGrossSalary base l = round2 (base + (l.map (allowanceTermSpec base)).sum) := by
  have hfun : (fun (g : ℚ) (a : Allowance) =>
      match a.type with
      | CompType.fixed => g + a.amount
      | CompType.percentage => g + base * a.amount / 100) =
      fun g a => g + allowanceTermSpec base a := by
    funext g a
    rcases a with ⟨n, amt, ty⟩
    cases ty <;> simp [allowanceTermSpec]
  simp only [calculateGrossSalary]
  rw [hfun, foldl_add_map]

/-- Shows `calculateTotalDeductions` is the rounded sum of the spec's deduction
terms (the dead second parameter does not influence the result). -/
theorem calculateTotalDeductions_eq (gross unusedBase : ℚ) (l : List Deduction) :
    calculateTotalDeductions gross unusedBase l =
      round2 ((l.map (deductionTermSpec gross)).sum) := by
  have hfun : (fun (t : ℚ) (d : Deduction) =>
      match d.type with
      | CompType.fixed => t + d.amount
      | CompType.percentage => t + gross * d.amount / 100) =
      fun t d => t + deductionTermSpec gross d := by
    funext t d
    rcases d with ⟨n, amt, ty⟩
    cases ty <;> simp [deductionTermSpec]
  simp only [calculateTotalDeductions]
  rw [hfun, foldl_add_map, zero_add]

/-- C1.  For every employee record produced by the payroll loop:
`grossSalary` is `effectiveBaseSalary` (the record's snapshotted
`baseSalary`) plus the allowance terms, rounded to 2 decimals half-up;
`totalDeductions` is the analogous sum with percentage deductions taken on
`grossSalary`, rounded to 2 decimals; and `netSalary` is their difference. -/
theorem claim1_salary_arithmetic (runId : String) (month : ℕ) (year : ℤ)
    (workingDays : ℕ) (s : SalaryStructureRow) (att : List AttendanceRow)
    (leaves : List LeaveRow) :
    (computeEmployeeRecord runId month year workingDays s att leaves).grossSalary =
      round2 ((computeEmployeeRecord runId month year workingDays s att leaves).baseSalary +
        (s.allowances.map (allowanceTermSpec
          (computeEmployeeRecord runId month year workingDays s att leaves).baseSalary)).sum) ∧
    (computeEmployeeRecord runId month year workingDays s att leaves).totalDeductions =
      round2 ((s.deductions.map (deductionTermSpec
        (computeEmployeeRecord runId month year workingDays s att leaves).grossSalary)).sum) ∧
    (computeEmployeeRecord runId month year workingDays s att leaves).netSalary =
      (computeEmployeeRecord runId month year workingDays s att leaves).grossSalary -
        (computeEmployeeRecord runId month year workingDays s att leaves).totalDeductions := by
  refine ⟨?_, ?_, rfl⟩
  · exact calculateGrossSalary_eq
      ((computeEmployeeRecord runId month year workingDays s att leaves).baseSalary)
      s.allowances
  · exact calculateTotalDeductions_eq
      ((computeEmployeeRecord runId month year workingDays s att leaves).grossSalary)
      ((computeEmployeeRecord runId month year workingDays s att leaves).baseSalary)
      s.deductions

/-- For a valid timestamp, being at or after the first instant of a day
interval is a calendar-day comparison. -/
theorem dayStart_toMs_le {s : ℤ} {t : Ts} (h : t.valid) :
    ((Ts.mk s 0).toMs ≤ t.toMs) ↔ (s ≤ t.day) := by
  obtain ⟨h0, h1⟩ := h
  simp only [Ts.toMs, msPerDay] at *
  constructor <;> intro hle <;> omega

/-- For a valid timestamp, being at or before the last millisecond of a day
is a calendar-day comparison. -/
theorem toMs_le_dayEnd {e : ℤ} {t : Ts} (h : t.valid) :
    (t.toMs ≤ (Ts.mk e (msPerDay - 1)).toMs) ↔ (t.day ≤ e) := by
  obtain ⟨h0, h1⟩ := h
  simp only [Ts.toMs, msPerDay] at *
  constructor <;> intro hle <;> omega

/-- The attendance count of the payroll loop agrees with the spec's
calendar-date description of "rows in the month" whenever the stored
timestamps have in-range intra-day offsets. -/
theorem attendanceDaysFor_eq_spec (att : List AttendanceRow)
    (organizationId userId : String) (y : ℤ) (m : ℕ)
    (h : ∀ a ∈ att, a.date.valid) :
    attendanceDaysFor att organizationId userId y m =
      attendanceDaysSpec att organizationId userId y m := by
  unfold attendanceDaysFor attendanceDaysSpec
  rw [List.countP_eq_length_filter]
  refine congrArg List.length (List.filter_congr ?_)
  intro a ha
  have h1 := (dayStart_toMs_le (s := daysFromCivil y m 1) (h a ha))
  have h2 := (toMs_le_dayEnd (e := daysFromCivil y m (daysInMonth y m)) (h a ha))
  rw [Bool.eq_iff_iff]
  simp only [inMonthSpec, monthStartTs, monthEndTs, Bool.and_eq_true, Bool.or_eq_true,
    decide_eq_true_eq]
  rw [h1, h2]
  tauto

/-- The leave-day sum of the payroll loop agrees with the spec's
calendar-date description of "leaves overlapping the month" whenever the
stored timestamps have in-range intra-day offsets. -/
theorem leaveDaysFor_eq_spec (leaves : List LeaveRow)
    (organizationId userId : String) (y : ℤ) (m : ℕ)
    (h : ∀ l ∈ leaves, l.startDate.valid ∧ l.endDate.valid) :
    leaveDaysFor leaves organizationId userId y m =
      leaveDaysSpec leaves organizationId userId y m := by
  unfold leaveDaysFor leaveDaysSpec
  refine congrArg (fun ls : List LeaveRow => (ls.map (fun x => x.totalDays)).sum)
    (List.filter_congr ?_)
  intro l hl
  have h1 := (toMs_le_dayEnd (e := daysFromCivil y m (daysInMonth y m)) (h l hl).1)
  have h2 := (dayStart_toMs_le (s := daysFromCivil y m 1) (h l hl).2)
  rw [Bool.eq_iff_iff]
  simp only [monthStartTs, monthEndTs, Bool.and_eq_true, decide_eq_true_eq]
  rw [h1, h2]

/-- The record's `daysWorked` field, unfolded. -/
theorem computeEmployeeRecord_daysWorked (runId : String) (month : ℕ) (year : ℤ)
    (workingDays : ℕ) (s : SalaryStructureRow) (att : List AttendanceRow)
    (leaves : List LeaveRow) :
    (computeEmployeeRecord runId month year workingDays s att leaves).daysWorked =
      (attendanceDaysFor att s.organizationId s.userId year month : ℚ) +
        leaveDaysFor leaves s.organizationId s.userId year month := rfl

/-- The record's `absentDays` field, unfolded. -/
theorem computeEmployeeRecord_absentDays (runId : String) (month : ℕ) (year : ℤ)
    (workingDays : ℕ) (s : SalaryStructureRow) (att : List AttendanceRow)
    (leaves : List LeaveRow) :
    (computeEmployeeRecord runId month year workingDays s att leaves).absentDays =
      (workingDays : ℚ) -
        ((attendanceDaysFor att s.organizationId s.userId year month : ℚ) +
          leaveDaysFor leaves s.organizationId s.userId year month) := rfl

/-- The record's snapshotted `baseSalary` field, unfolded. -/
theorem computeEmployeeRecord_baseSalary (runId : String) (month : ℕ) (year : ℤ)
    (workingDays : ℕ) (s : SalaryStructureRow) (att : List AttendanceRow)
    (leaves : List LeaveRow) :
    (computeEmployeeRecord runId month year workingDays s att leaves).baseSalary =
      (if 0 < (workingDays : ℚ) -
          ((attendanceDaysFor att s.organizationId s.userId year month : ℚ) +
            leaveDaysFor leaves s.organizationId s.userId year month) then
        s.baseSalary / (workingDays : ℚ) *
          ((attendanceDaysFor att s.organizationId s.userId year month : ℚ) +
            leaveDaysFor leaves s.organizationId s.userId year month)
      else s.baseSalary) := rfl

/-- The record's `grossSalary` field, unfolded. -/
theorem computeEmployeeRecord_grossSalary (runId : String) (month : ℕ) (year : ℤ)
    (workingDays : ℕ) (s : SalaryStructureRow) (att : List AttendanceRow)
    (leaves : List LeaveRow) :
    (computeEmployeeRecord runId month year workingDays s att leaves).grossSalary =
      calculateGrossSalary
        (computeEmployeeRecord runId month year workingDays s att leaves).baseSalary
        s.allowances := rfl

/-- The record's `totalDeductions` field, unfolded. -/
theorem computeEmployeeRecord_totalDeductions (runId : String) (month : ℕ) (year : ℤ)
    (workingDays : ℕ) (s : SalaryStructureRow) (att : List AttendanceRow)
    (leaves : List LeaveRow) :
    (computeEmployeeRecord runId month year workingDays s att leaves).totalDeductions =
      calculateTotalDeductions
        (computeEmployeeRecord runId month year workingDays s att leaves).grossSalary
        (computeEmployeeRecord runId month year workingDays s att leaves).baseSalary
        s.deductions := rfl

/-- The record's `netSalary` field, unfolded. -/
theorem computeEmployeeRecord_netSalary (runId : String) (month : ℕ) (year : ℤ)
    (workingDays : ℕ) (s : SalaryStructureRow) (att : List AttendanceRow)
    (leaves : List LeaveRow) :
    (computeEmployeeRecord runId month year workingDays s att leaves).netSalary =
      (computeEmployeeRecord runId month year workingDays s att leaves).grossSalary -
        (computeEmployeeRecord runId month year workingDays s att leaves).totalDeductions := rfl

/-- C2.  For every employee processed by the run: `daysWorked` adds the
attendance count (present/late/half-day rows of the month) to the sum of
`totalDays` over approved leaves overlapping the month, `absentDays` is
`workingDays - daysWorked` with no clamping, the base salary is prorated by
`baseSalary / workingDays * daysWorked` exactly when `absentDays > 0`; and
the spec's worked example (base 3000, allowance 500 fixed, deduction 10 %,
20 working days, 15 days worked) yields 2250 / 2750 / 275 / 2475. -/
theorem claim2_attendance_leave_proration :
    (∀ (runId : String) (month : ℕ) (year : ℤ) (workingDays : ℕ)
        (s : SalaryStructureRow) (att : List AttendanceRow) (leaves : List LeaveRow),
      (∀ a ∈ att, a.date.valid) →
      (∀ l ∈ leaves, l.startDate.valid ∧ l.endDate.valid) →
      (computeEmployeeRecord runId month year workingDays s att leaves).leaveDays =
          leaveDaysSpec leaves s.organizationId s.userId year month ∧
      (computeEmployeeRecord runId month year workingDays s att leaves).daysWorked =
          (attendanceDaysSpec att s.organizationId s.userId year month : ℚ) +
            leaveDaysSpec leaves s.organizationId s.userId year month ∧
      (computeEmployeeRecord runId month year workingDays s att leaves).absentDays =
          (workingDays : ℚ) -
            (computeEmployeeRecord runId month year workingDays s att leaves).daysWorked ∧
      ((0 : ℚ) < (computeEmployeeRecord runId month year workingDays s att leaves).absentDays →
        (computeEmployeeRecord runId month year workingDays s att leaves).baseSalary =
          s.baseSalary / (workingDays : ℚ) *
            (computeEmployeeRecord runId month year workingDays s att leaves).daysWorked) ∧
      ((computeEmployeeRecord runId month year workingDays s att leaves).absentDays ≤ 0 →
        (computeEmployeeRecord runId month year workingDays s att leaves).baseSalary =
          s.baseSalary)) ∧
    ((computeEmployeeRecord "R" 1 2025 20 exampleStructure exampleAttendance []).baseSalary
        = 2250 ∧
      (computeEmployeeRecord "R" 1 2025 20 exampleStructure exampleAttendance []).grossSalary
        = 2750 ∧
      (computeEmployeeRecord "R" 1 2025 20 exampleStructure exampleAttendance []).totalDeductions
        = 275 ∧
      (computeEmployeeRecord "R" 1 2025 20 exampleStructure exampleAttendance []).netSalary
        = 2475) := by
  constructor
  · intro runId month year workingDays s att leaves hatt hleaves
    have ha := attendanceDaysFor_eq_spec att s.organizationId s.userId year month hatt
    have hl := leaveDaysFor_eq_spec leaves s.organizationId s.userId year month hleaves
    refine ⟨hl, ?_, rfl, ?_, ?_⟩
    · rw [computeEmployeeRecord_daysWorked, ha, hl]
    · intro hpos
      rw [computeEmployeeRecord_absentDays] at hpos
      rw [computeEmployeeRecord_baseSalary, computeEmployeeRecord_daysWorked, if_pos hpos]
    · intro hnonpos
      rw [computeEmployeeRecord_absentDays] at hnonpos
      rw [computeEmployeeRecord_baseSalary, if_neg (not_lt.mpr hnonpos)]
  · have hA : attendanceDaysFor exampleAttendance exampleStructure.organizationId
        exampleStructure.userId 2025 1 = 15 := by decide
    have hL : leaveDaysFor [] exampleStructure.organizationId
        exampleStructure.userId 2025 1 = 0 := rfl
    have hbase : (computeEmployeeRecord "R" 1 2025 20 exampleStructure
        exampleAttendance []).baseSalary = 2250 := by
      rw [computeEmployeeRecord_baseSalary, hA, hL]
      norm_num [exampleStructure]
    have hgross : (computeEmployeeRecord "R" 1 2025 20 exampleStructure
        exampleAttendance []).grossSalary = 2750 := by
      rw [computeEmployeeRecord_grossSalary, hbase, calculateGrossSalary_eq]
      norm_num [exampleStructure, allowanceTermSpec, round2, jsRound]
    have hded : (computeEmployeeRecord "R" 1 2025 20 exampleStructure
        exampleAttendance []).totalDeductions = 275 := by
      rw [computeEmployeeRecord_totalDeductions, hgross, hbase, calculateTotalDeductions_eq]
      norm_num [exampleStructure, deductionTermSpec, round2, jsRound]
    have hnet : (computeEmployeeRecord "R" 1 2025 20 exampleStructure
        exampleAttendance []).netSalary = 2475 := by
      rw [computeEmployeeRecord_netSalary, hgross, hded]
      norm_num
    exact ⟨hbase, hgross, hded, hnet⟩

/-- C3.  `processPayrollRun` fails with Not-Found when the run is missing,
with Validation (`BadRequestError`) when the run is Completed or Cancelled;
otherwise the first status it persists is Processing, any exception from the
computation leaves a persisted Draft status and propagates, and the last
persisted status is never Processing. -/
theorem claim3_run_state_machine (runs : List PayrollRunRow)
    (organizationId payrollRunId processedByUserId : String)
    (compute : Except PayrollErr RunTotals) :
    (runs.find? (fun r => r.id == payrollRunId && r.organizationId == organizationId) = none →
      processPayrollRun runs organizationId payrollRunId processedByUserId compute =
        (.error .notFound, [])) ∧
    (∀ run,
      runs.find? (fun r => r.id == payrollRunId && r.organizationId == organizationId) =
          some run →
      (run.status = .completed →
        processPayrollRun runs organizationId payrollRunId processedByUserId compute =
          (.error .badRequest, [])) ∧
      (run.status = .cancelled →
        processPayrollRun runs organizationId payrollRunId processedByUserId compute =
          (.error .badRequest, [])) ∧
      (run.status ≠ .completed → run.status ≠ .cancelled →
        ((processPayrollRun runs organizationId payrollRunId processedByUserId compute).2.head?
            = some .processing ∧
         (∀ e, compute = .error e →
            processPayrollRun runs organizationId payrollRunId processedByUserId compute =
              (.error e, [.processing, .draft]))))) ∧
    ((processPayrollRun runs organizationId payrollRunId processedByUserId compute).2.getLast?
        ≠ some PayrollRunStatus.processing) := by
  refine ⟨?_, ?_, ?_⟩
  · intro hnone
    simp [processPayrollRun, hnone]
  · intro run hfound
    refine ⟨?_, ?_, ?_⟩
    · intro hc
      simp [processPayrollRun, hfound, hc]
    · intro hc
      simp [processPayrollRun, hfound, hc]
    · intro hnc hncan
      have hc : (run.status == PayrollRunStatus.completed) = false := by
        simpa using hnc
      have hcan : (run.status == PayrollRunStatus.cancelled) = false := by
        simpa using hncan
      constructor
      · simp only [processPayrollRun, hfound, hc, hcan]
        cases compute <;> simp
      · intro e he
        simp [processPayrollRun, hfound, hc, hcan, he]
  · rcases hfound : runs.find?
        (fun r => r.id == payrollRunId && r.organizationId == organizationId) with _ | run
    · simp [processPayrollRun, hfound]
    · rcases hc : (run.status == PayrollRunStatus.completed) with _ | _
      · rcases hcan : (run.status == PayrollRunStatus.cancelled) with _ | _
        · simp only [processPayrollRun, hfound, hc, hcan]
          cases compute <;> simp
        · simp [processPayrollRun, hfound, hc, hcan]
      · simp [processPayrollRun, hfound, hc]

/-- Witness for C3: on a one-run store holding a Draft run, a failing
computation propagates its error and the persisted statuses are Processing
then Draft. -/
theorem claim3_run_state_machine_witness :
    processPayrollRun
      [({ id := "r1", organizationId := "o", month := 1, year := 2025,
          status := .draft, processedBy := none, totalGrossSalary := 0,
          totalDeductions := 0, totalNetSalary := 0,
          employeeCount := 0 } : PayrollRunRow)]
      "o" "r1" "p" (.error .badRequest) =
      (.error .badRequest, [.processing, .draft]) := by
  have h := (claim3_run_state_machine
    [({ id := "r1", organizationId := "o", month := 1, year := 2025,
        status := .draft, processedBy := none, totalGrossSalary := 0,
        totalDeductions := 0, totalNetSalary := 0,
        employeeCount := 0 } : PayrollRunRow)]
    "o" "r1" "p" (.error .badRequest)).2.1
    ({ id := "r1", organizationId := "o", month := 1, year := 2025,
       status := .draft, processedBy := none, totalGrossSalary := 0,
       totalDeductions := 0, totalNetSalary := 0,
       employeeCount := 0 } : PayrollRunRow) (by decide)
  exact (h.2.2 (by decide) (by decide)).2 .badRequest rfl

/-- C7.  `createPayrollRun` fails with Conflict when a run for the same
(organization, month, year) exists (leaving the store untouched, since only
the ok branch returns a new store); otherwise it appends a Draft run with
zeroed aggregates, preserving the one-run-per-period invariant. -/
theorem claim7_create_run_conflict (runs : List PayrollRunRow)
    (organizationId : String) (month : ℕ) (year : ℤ) (newId : String) :
    ((∃ r ∈ runs, r.organizationId = organizationId ∧ r.month = month ∧ r.year = year) →
      createPayrollRun runs organizationId month year newId = .error .conflict) ∧
    (∀ runs1 run,
      createPayrollRun runs organizationId month year newId = .ok (runs1, run) →
      run.status = .draft ∧ run.totalGrossSalary = 0 ∧ run.totalDeductions = 0 ∧
      run.totalNetSalary = 0 ∧ run.employeeCount = 0 ∧ run.processedBy = none ∧
      run.organizationId = organizationId ∧ run.month = month ∧ run.year = year ∧
      runs1 = runs ++ [run] ∧
      (uniqueRunInvariant runs → uniqueRunInvariant runs1)) := by
  constructor
  · rintro ⟨r, hr, ho, hm, hy⟩
    rcases hf : runs.find? (fun x =>
        x.organizationId == organizationId && x.month == month && x.year == year) with _ | x
    · rw [List.find?_eq_none] at hf
      exact absurd (by simp [ho, hm, hy]) (hf r hr)
    · simp [createPayrollRun, hf]
  · intro runs1 run hok
    rcases hf : runs.find? (fun x =>
        x.organizationId == organizationId && x.month == month && x.year == year) with _ | x
    · have hf' := hf
      rw [List.find?_eq_none] at hf'
      simp only [createPayrollRun, hf, Except.ok.injEq, Prod.mk.injEq] at hok
      obtain ⟨h1, h2⟩ := hok
      subst h2
      refine ⟨rfl, rfl, rfl, rfl, rfl, rfl, rfl, rfl, rfl, h1.symm, ?_⟩
      intro hinv organizationId2 m2 y2
      subst h1
      by_cases hkey : organizationId2 = organizationId ∧ m2 = month ∧ y2 = year
      · obtain ⟨hk1, hk2, hk3⟩ := hkey
        subst hk1; subst hk2; subst hk3
        have hempty : runsForPeriod runs organizationId2 m2 y2 = [] := by
          rw [runsForPeriod, List.filter_eq_nil_iff]
          intro r hr
          exact hf' r hr
        rw [runsForPeriod, List.filter_append, ← runsForPeriod, hempty]
        simp [runsForPeriod]
      · rw [runsForPeriod, List.filter_append, ← runsForPeriod]
        have hlast : List.filter (fun r =>
            r.organizationId == organizationId2 && r.month == m2 && r.year == y2)
            [({ id := newId, organizationId := organizationId, month := month,
                year := year, status := .draft, processedBy := none,
                totalGrossSalary := 0, totalDeductions := 0, totalNetSalary := 0,
                employeeCount := 0 } : PayrollRunRow)] = [] := by
          simp only [List.filter_eq_nil_iff]
          intro r hr
          simp only [List.mem_singleton] at hr
          subst hr
          simp only [Bool.and_eq_true, beq_iff_eq]
          rintro ⟨⟨h1, h2⟩, h3⟩
          exact hkey ⟨h1.symm, h2.symm, h3.symm⟩
        rw [hlast, List.append_nil]
        exact hinv organizationId2 m2 y2
    · simp [createPayrollRun, hf] at hok

/-- Witness for C7: creating the first run of a period yields a Draft run
with zeroed aggregates and a store satisfying the one-run-per-period
invariant. -/
theorem claim7_create_run_conflict_witness :
    createPayrollRun [] "o" 1 2025 "r1" =
      .ok ([({ id := "r1", organizationId := "o", month := 1, year := 2025,
               status := .draft, processedBy := none, totalGrossSalary := 0,
               totalDeductions := 0, totalNetSalary := 0,
               employeeCount := 0 } : PayrollRunRow)],
           ({ id := "r1", organizationId := "o", month := 1, year := 2025,
              status := .draft, processedBy := none, totalGrossSalary := 0,
              totalDeductions := 0, totalNetSalary := 0,
              employeeCount := 0 } : PayrollRunRow)) ∧
    uniqueRunInvariant
      [({ id := "r1", organizationId := "o", month := 1, year := 2025,
          status := .draft, processedBy := none, totalGrossSalary := 0,
          totalDeductions := 0, totalNetSalary := 0,
          employeeCount := 0 } : PayrollRunRow)] := by
  refine ⟨rfl, ?_⟩
  have h := ((claim7_create_run_conflict [] "o" 1 2025 "r1").2 _ _ rfl).2.2.2.2.2.2.2.2.2.2
  exact h (by intro o m y; simp [uniqueRunInvariant, runsForPeriod])

/-- The `updateMany` with `isActive := false` leaves no active structure for the
targeted (organization, user). -/
theorem activeFor_deactivateAll (l : List SalaryStructureRow) (org usr : String) :
    activeStructuresFor (l.map (fun s =>
      if s.organizationId == org && s.userId == usr && s.isActive
      then { s with isActive := false } else s)) org usr = [] := by
  induction l with
  | nil => rfl
  | cons s t ih =>
    simp only [activeStructuresFor, List.map_cons, List.filter_cons] at ih ⊢
    by_cases hp : (s.organizationId == org && s.userId == usr && s.isActive) = true
    · simp only [if_pos hp]
      simpa using ih
    · simp only [if_neg hp]
      exact ih

/-- The `updateMany` on one (organization, user) does not change the active
structures of any other key. -/
theorem activeFor_deactivateAll_other (l : List SalaryStructureRow)
    (org usr org2 usr2 : String) (h : ¬(org2 = org ∧ usr2 = usr)) :
    activeStructuresFor (l.map (fun s =>
      if s.organizationId == org && s.userId == usr && s.isActive
      then { s with isActive := false } else s)) org2 usr2 =
      activeStructuresFor l org2 usr2 := by
  induction l with
  | nil => rfl
  | cons s t ih =>
    simp only [activeStructuresFor, List.map_cons, List.filter_cons] at ih ⊢
    by_cases hp : (s.organizationId == org && s.userId == usr && s.isActive) = true
    · have hps : (s.organizationId == org2 && s.userId == usr2 && s.isActive) = false := by
        rw [Bool.eq_false_iff]
        intro hcon
        simp only [Bool.and_eq_true, beq_iff_eq] at hcon hp
        exact h ⟨hcon.1.1.symm.trans hp.1.1, hcon.1.2.symm.trans hp.1.2⟩
      simp only [if_pos hp, hps, Bool.false_eq_true, if_false]
      simpa using ih
    · simp only [if_neg hp]
      by_cases hq : (s.organizationId == org2 && s.userId == usr2 && s.isActive) = true
      · simp only [hq, if_true, ih]
      · simp only [hq, Bool.false_eq_true, if_false]
        exact ih

/-- Deactivating the first active structure removes the only active one when
the key had at most one. -/
theorem activeFor_deactivateFirst_self (org usr : String) (l : List SalaryStructureRow)
    (hlen : (activeStructuresFor l org usr).length ≤ 1) :
    activeStructuresFor (deactivateFirstActive org usr l) org usr = [] := by
  induction l with
  | nil => rfl
  | cons s t ih =>
    simp only [activeStructuresFor, List.filter_cons] at hlen ih ⊢
    rw [deactivateFirstActive]
    by_cases hp : (s.organizationId == org && s.userId == usr && s.isActive) = true
    · simp only [hp, if_true] at hlen
      simp only [if_pos hp, List.filter_cons]
      have htail : List.filter (fun x =>
          x.organizationId == org && x.userId == usr && x.isActive) t = [] := by
        simp only [List.length_cons] at hlen
        have h0 : (List.filter (fun x =>
            x.organizationId == org && x.userId == usr && x.isActive) t).length = 0 := by
          omega
        exact List.length_eq_zero.mp h0
      simpa using htail
    · simp only [hp, Bool.false_eq_true, if_false] at hlen
      simp only [if_neg hp, List.filter_cons, hp, Bool.false_eq_true, if_false]
      exact ih hlen

/-- Deactivating the first active structure of one key does not change the
active structures of any other key. -/
theorem activeFor_deactivateFirst_other (org usr org2 usr2 : String)
    (l : List SalaryStructureRow) (h : ¬(org2 = org ∧ usr2 = usr)) :
    activeStructuresFor (deactivateFirstActive org usr l) org2 usr2 =
      activeStructuresFor l org2 usr2 := by
  induction l with
  | nil => rfl
  | cons s t ih =>
    simp only [activeStructuresFor, List.filter_cons] at ih ⊢
    rw [deactivateFirstActive]
    by_cases hp : (s.organizationId == org && s.userId == usr && s.isActive) = true
    · have hps : (s.organizationId == org2 && s.userId == usr2 && s.isActive) = false := by
        rw [Bool.eq_false_iff]
        intro hcon
        simp only [Bool.and_eq_true, beq_iff_eq] at hcon hp
        exact h ⟨hcon.1.1.symm.trans hp.1.1, hcon.1.2.symm.trans hp.1.2⟩
      simp only [if_pos hp, List.filter_cons, hps, Bool.false_eq_true, if_false]
      simp [hps]
    · simp only [if_neg hp, List.filter_cons]
      by_cases hq : (s.organizationId == org2 && s.userId == usr2 && s.isActive) = true
      · simp only [hq, if_true, ih]
      · simp only [hq, Bool.false_eq_true, if_false]
        exact ih

/-- Active structures of an appended one-row list split off the row. -/
theorem activeFor_append_single (l : List SalaryStructureRow) (org usr : String)
    (row : SalaryStructureRow) :
    activeStructuresFor (l ++ [row]) org usr =
      activeStructuresFor l org usr ++ activeStructuresFor [row] org usr := by
  simp [activeStructuresFor, List.filter_append]

/-- A single active row of the queried key answers the query with itself. -/
theorem activeFor_single_self (org usr : String) (row : SalaryStructureRow)
    (h1 : row.organizationId = org) (h2 : row.userId = usr) (h3 : row.isActive = true) :
    activeStructuresFor [row] org usr = [row] := by
  simp [activeStructuresFor, h1, h2, h3]

/-- A single row of a different key does not answer the query. -/
theorem activeFor_single_other (org2 usr2 : String) (row : SalaryStructureRow)
    (h : ¬(org2 = row.organizationId ∧ usr2 = row.userId)) :
    activeStructuresFor [row] org2 usr2 = [] := by
  simp only [activeStructuresFor, List.filter_eq_nil_iff]
  intro x hx
  simp only [List.mem_singleton] at hx
  subst hx
  simp only [Bool.and_eq_true, beq_iff_eq]
  rintro ⟨⟨ha, hb⟩, hc⟩
  exact h ⟨ha.symm, hb.symm⟩

/-- C6.  After a successful `createSalaryStructure` or
`updateSalaryStructure`, the touched user has exactly one active structure
and the at-most-one-active invariant still holds for every key: creating a
second active structure deactivates the first. -/
theorem claim6_one_active_structure (users : List UserRow)
    (structures : List SalaryStructureRow) (organizationId : String)
    (data : CreateSalaryStructureData) (createdByUserId : String)
    (userId : String) (udata : UpdateSalaryStructureData)
    (updatedByUserId : String) (now : Ts) :
    (∀ st1 row,
      createSalaryStructure users structures organizationId data createdByUserId =
          .ok (st1, row) →
      uniqueActiveInvariant structures →
      uniqueActiveInvariant st1 ∧
        (activeStructuresFor st1 organizationId data.userId).length = 1) ∧
    (∀ st1 row,
      updateSalaryStructure structures organizationId userId udata updatedByUserId now =
          .ok (st1, row) →
      uniqueActiveInvariant structures →
      uniqueActiveInvariant st1 ∧
        (activeStructuresFor st1 organizationId userId).length = 1) := by
  constructor
  · intro st1 row hok hinv
    rcases hu : users.find? (fun u =>
        u.id == data.userId && u.organizationId == organizationId && u.isActive) with _ | u
    · simp [createSalaryStructure, hu] at hok
    · simp only [createSalaryStructure, hu, Except.ok.injEq, Prod.mk.injEq] at hok
      obtain ⟨h1, h2⟩ := hok
      subst h1
      subst h2
      constructor
      · intro org2 usr2
        by_cases hkey : org2 = organizationId ∧ usr2 = data.userId
        · obtain ⟨hk1, hk2⟩ := hkey
          rw [hk1, hk2, activeFor_append_single, activeFor_deactivateAll, List.nil_append,
            activeFor_single_self _ _ _ rfl rfl rfl]
          simp
        · rw [activeFor_append_single, activeFor_deactivateAll_other _ _ _ _ _ hkey,
            activeFor_single_other _ _ _ (by simpa using hkey), List.append_nil]
          exact hinv org2 usr2
      · rw [activeFor_append_single, activeFor_deactivateAll, List.nil_append,
          activeFor_single_self _ _ _ rfl rfl rfl]
        simp
  · intro st1 row hok hinv
    rcases hc : structures.find? (fun s =>
        s.organizationId == organizationId && s.userId == userId && s.isActive) with _ | cur
    · simp [updateSalaryStructure, hc] at hok
    · simp only [updateSalaryStructure, hc, Except.ok.injEq, Prod.mk.injEq] at hok
      obtain ⟨h1, h2⟩ := hok
      subst h1
      subst h2
      constructor
      · intro org2 usr2
        by_cases hkey : org2 = organizationId ∧ usr2 = userId
        · obtain ⟨hk1, hk2⟩ := hkey
          rw [hk1, hk2, activeFor_append_single,
            activeFor_deactivateFirst_self _ _ _ (hinv organizationId userId),
            List.nil_append, activeFor_single_self _ _ _ rfl rfl rfl]
          simp
        · rw [activeFor_append_single,
            activeFor_deactivateFirst_other _ _ _ _ _ hkey,
            activeFor_single_other _ _ _ (by simpa using hkey), List.append_nil]
          exact hinv org2 usr2
      · rw [activeFor_append_single,
          activeFor_deactivateFirst_self _ _ _ (hinv organizationId userId),
          List.nil_append, activeFor_single_self _ _ _ rfl rfl rfl]
        simp

/-- Witness for C6: creating a second active structure for a user who
already has one leaves the store with the old row deactivated and exactly
one active row. -/
theorem claim6_one_active_structure_witness :
    createSalaryStructure
        [({ id := "u1", organizationId := "o", isActive := true } : UserRow)]
        [({ organizationId := "o", userId := "u1", baseSalary := 500, allowances := [],
            deductions := [], effectiveFrom := ⟨0, 0⟩, isActive := true,
            createdBy := "c" } : SalaryStructureRow)]
        "o"
        ({ userId := "u1", baseSalary := 1000, allowances := none, deductions := none,
           effectiveFrom := ⟨1, 0⟩ } : CreateSalaryStructureData) "c2" =
      .ok ([({ organizationId := "o", userId := "u1", baseSalary := 500, allowances := [],
               deductions := [], effectiveFrom := ⟨0, 0⟩, isActive := false,
               createdBy := "c" } : SalaryStructureRow),
            ({ organizationId := "o", userId := "u1", baseSalary := 1000, allowances := [],
               deductions := [], effectiveFrom := ⟨1, 0⟩, isActive := true,
               createdBy := "c2" } : SalaryStructureRow)],
           ({ organizationId := "o", userId := "u1", baseSalary := 1000, allowances := [],
              deductions := [], effectiveFrom := ⟨1, 0⟩, isActive := true,
              createdBy := "c2" } : SalaryStructureRow)) ∧
    uniqueActiveInvariant
      [({ organizationId := "o", userId := "u1", baseSalary := 500, allowances := [],
          deductions := [], effectiveFrom := ⟨0, 0⟩, isActive := false,
          createdBy := "c" } : SalaryStructureRow),
       ({ organizationId := "o", userId := "u1", baseSalary := 1000, allowances := [],
          deductions := [], effectiveFrom := ⟨1, 0⟩, isActive := true,
          createdBy := "c2" } : SalaryStructureRow)] ∧
    (activeStructuresFor
      [({ organizationId := "o", userId := "u1", baseSalary := 500, allowances := [],
          deductions := [], effectiveFrom := ⟨0, 0⟩, isActive := false,
          createdBy := "c" } : SalaryStructureRow),
       ({ organizationId := "o", userId := "u1", baseSalary := 1000, allowances := [],
          deductions := [], effectiveFrom := ⟨1, 0⟩, isActive := true,
          createdBy := "c2" } : SalaryStructureRow)] "o" "u1").length = 1 := by
  have hinv0 : uniqueActiveInvariant
      [({ organizationId := "o", userId := "u1", baseSalary := 500, allowances := [],
          deductions := [], effectiveFrom := ⟨0, 0⟩, isActive := true,
          createdBy := "c" } : SalaryStructureRow)] := by
    intro o u
    simp only [activeStructuresFor, List.filter_cons, List.filter_nil]
    split <;> simp
  have h := (claim6_one_active_structure
      [({ id := "u1", organizationId := "o", isActive := true } : UserRow)]
      [({ organizationId := "o", userId := "u1", baseSalary := 500, allowances := [],
          deductions := [], effectiveFrom := ⟨0, 0⟩, isActive := true,
          createdBy := "c" } : SalaryStructureRow)]
      "o"
      ({ userId := "u1", baseSalary := 1000, allowances := none, deductions := none,
         effectiveFrom := ⟨1, 0⟩ } : CreateSalaryStructureData) "c2"
      "u1" ({ baseSalary := none, allowances := none, deductions := none,
              effectiveFrom := none } : UpdateSalaryStructureData) "c2" ⟨0, 0⟩).1
    [({ organizationId := "o", userId := "u1", baseSalary := 500, allowances := [],
        deductions := [], effectiveFrom := ⟨0, 0⟩, isActive := false,
        createdBy := "c" } : SalaryStructureRow),
     ({ organizationId := "o", userId := "u1", baseSalary := 1000, allowances := [],
        deductions := [], effectiveFrom := ⟨1, 0⟩, isActive := true,
        createdBy := "c2" } : SalaryStructureRow)]
    ({ organizationId := "o", userId := "u1", baseSalary := 1000, allowances := [],
       deductions := [], effectiveFrom := ⟨1, 0⟩, isActive := true,
       createdBy := "c2" } : SalaryStructureRow) rfl hinv0
  exact ⟨rfl, h.1, h.2⟩

/-- The leave service's working-day counter equals the spec's count of
Mon–Fri days. -/
theorem leaveCalculateWorkingDays_eq_weekdayCountSpec (s e : ℤ) :
    leaveCalculateWorkingDays s e = weekdayCountSpec s e := by
  unfold leaveCalculateWorkingDays weekdayCountSpec
  rw [List.countP_eq_length_filter]
  refine congrArg List.length (List.filter_congr ?_)
  intro d _
  rw [Bool.eq_iff_iff]
  simp [isWeekendDay, not_or]

/-- Shows `checkBalance` succeeds exactly when the type is unpaid or the matching
bucket's remaining covers the requested days. -/
theorem checkBalance_iff (b : LeaveBalanceRow) (t : LeaveType) (d : ℚ) :
    checkBalance b t d = true ↔ (t = .unpaid ∨ d ≤ remainingFor b t) := by
  cases t <;> simp [checkBalance, remainingFor]

/-- C5.  `requestLeave` behaves exactly as the spec describes: start-of-day
normalization, Validation on end < start, weekday-count `totalDays` with
Validation on zero, Conflict on an overlapping Pending/Approved leave,
lazy balance creation for start's year with Validation unless the type is
unpaid or `remaining ≥ totalDays`, and insertion of a Pending leave. -/
theorem claim5_request_leave (db : LeaveDB) (userId organizationId : String)
    (leaveType : LeaveType) (startDate endDate : Ts) (reason newId : String) :
    requestLeave db userId organizationId leaveType startDate endDate reason newId =
      requestLeaveSpec db userId organizationId leaveType startDate endDate reason newId := by
  simp only [requestLeave, requestLeaveSpec, leaveCalculateWorkingDays_eq_weekdayCountSpec]
  by_cases h1 : (startOfDay endDate).toMs < (startOfDay startDate).toMs
  · rw [if_pos h1, if_pos h1]
  · rw [if_neg h1, if_neg h1]
    by_cases h2 : weekdayCountSpec (startOfDay startDate).day (startOfDay endDate).day = 0
    · rw [if_pos h2, if_pos h2]
    · rw [if_neg h2, if_neg h2]
      by_cases h3 : (db.leaves.any (fun l =>
          l.userId == userId && l.organizationId == organizationId
            && (l.status == .pending || l.status == .approved)
            && l.startDate.toMs ≤ (startOfDay endDate).toMs
            && (startOfDay startDate).toMs ≤ l.endDate.toMs)) = true
      · rw [if_pos h3, if_pos h3]
      · rw [if_neg h3, if_neg h3]
        rcases hgc : getOrCreateLeaveBalance db.balances userId
            (yearOfDay (startOfDay startDate).day) organizationId with ⟨balances1, balance⟩
        simp only [hgc]
        by_cases h4 : checkBalance balance leaveType
            ((weekdayCountSpec (startOfDay startDate).day (startOfDay endDate).day : ℕ) : ℚ)
            = true
        · rw [if_neg (by simp [h4]), if_pos ((checkBalance_iff _ _ _).mp h4)]
        · rw [if_pos (by simp [Bool.not_eq_true] at h4 ⊢; exact h4),
            if_neg (fun hc => h4 ((checkBalance_iff _ _ _).mpr hc))]

/-- Every row of a persisted balance collection is an old row or the hooked
write. -/
theorem mem_persistBalance (balances : List LeaveBalanceRow) (b1 x : LeaveBalanceRow)
    (hx : x ∈ persistBalance balances b1) :
    x ∈ balances ∨ x = leaveBalanceSaveHook b1 := by
  unfold persistBalance at hx
  rcases List.mem_map.mp hx with ⟨y, hy, he⟩
  by_cases hc : (y.userId == b1.userId && y.year == b1.year
      && y.organizationId == b1.organizationId) = true
  · rw [if_pos hc] at he
    exact Or.inr he.symm
  · rw [if_neg hc] at he
    exact Or.inl (he ▸ hy)

/-- Every row of a get-or-created balance collection is an old row or the
hooked default. -/
theorem mem_getOrCreate (balances : List LeaveBalanceRow)
    (userId : String) (year : ℤ) (organizationId : String) (x : LeaveBalanceRow)
    (hx : x ∈ (getOrCreateLeaveBalance balances userId year organizationId).1) :
    x ∈ balances ∨
      x = leaveBalanceSaveHook (defaultLeaveBalance userId year organizationId) := by
  unfold getOrCreateLeaveBalance at hx
  rcases hf : balances.find? (fun b =>
      b.userId == userId && b.year == year && b.organizationId == organizationId) with _ | b
  · rw [hf] at hx
    simp only [List.mem_append, List.mem_singleton] at hx
    exact hx
  · rw [hf] at hx
    exact Or.inl hx

/-- C9.  `remaining = total - used` holds in each paid bucket of every
persisted balance: the schema's save hook re-establishes it on every write,
lazily created balances satisfy it, and both `requestLeave` and
`approveLeave` only ever add or replace rows that satisfy it. -/
theorem claim9_balance_invariant :
    (∀ b, balancedBuckets (leaveBalanceSaveHook b)) ∧
    (∀ (balances : List LeaveBalanceRow) (userId : String) (year : ℤ)
        (organizationId : String),
      ∀ b ∈ (getOrCreateLeaveBalance balances userId year organizationId).1,
        b ∈ balances ∨ balancedBuckets b) ∧
    (∀ (db : LeaveDB) (leaveId reviewerId : String) (notes : Option String) (now : ℤ),
      ∀ b ∈ (approveLeave db leaveId reviewerId notes now).2.balances,
        b ∈ db.balances ∨ balancedBuckets b) ∧
    (∀ (db : LeaveDB) (userId organizationId : String) (leaveType : LeaveType)
        (startDate endDate : Ts) (reason newId : String),
      ∀ b ∈ (requestLeave db userId organizationId leaveType startDate endDate
          reason newId).2.balances,
        b ∈ db.balances ∨ balancedBuckets b) := by
  have hook : ∀ b, balancedBuckets (leaveBalanceSaveHook b) := by
    intro b
    exact ⟨rfl, rfl, rfl⟩
  have goc : ∀ (balances : List LeaveBalanceRow) (userId : String) (year : ℤ)
      (organizationId : String),
      ∀ b ∈ (getOrCreateLeaveBalance balances userId year organizationId).1,
        b ∈ balances ∨ balancedBuckets b := by
    intro balances userId year organizationId b hb
    rcases mem_getOrCreate balances userId year organizationId b hb with h | h
    · exact Or.inl h
    · exact Or.inr (h ▸ hook _)
  refine ⟨hook, goc, ?_, ?_⟩
  · intro db leaveId reviewerId notes now b hb
    unfold approveLeave at hb
    rcases hf : db.leaves.find? (fun l => l.id == leaveId) with _ | leave
    · simp only [hf] at hb
      exact Or.inl hb
    · simp only [hf] at hb
      by_cases hst : (leave.status != LeaveStatus.pending) = true
      · rw [if_pos hst] at hb
        exact Or.inl hb
      · rw [if_neg hst] at hb
        rcases hgc : getOrCreateLeaveBalance db.balances leave.userId
            (yearOfDay leave.startDate.day) leave.organizationId with ⟨balances1, balance⟩
        simp only [hgc] at hb
        rcases hmk : markLeaveDays leave.userId
            ((eachDayOfInterval leave.startDate.day leave.endDate.day).filter
              (fun d => !isWeekendDay d)) db.attendance with ⟨res, att1⟩
        have hb2 : b ∈ persistBalance balances1
            (bumpBalance balance leave.leaveType leave.totalDays) := by
          simp only [hmk] at hb
          cases res
          · exact hb
          · exact hb
        rcases mem_persistBalance _ _ _ hb2 with h | h
        · have : b ∈ (getOrCreateLeaveBalance db.balances leave.userId
              (yearOfDay leave.startDate.day) leave.organizationId).1 := by
            rw [hgc]
            exact h
          exact goc _ _ _ _ b this
        · exact Or.inr (h ▸ hook _)
  · intro db userId organizationId leaveType startDate endDate reason newId b hb
    unfold requestLeave at hb
    by_cases h1 : (startOfDay endDate).toMs < (startOfDay startDate).toMs
    · rw [if_pos h1] at hb
      exact Or.inl hb
    · rw [if_neg h1] at hb
      by_cases h2 : leaveCalculateWorkingDays (startOfDay startDate).day
          (startOfDay endDate).day = 0
      · rw [if_pos h2] at hb
        exact Or.inl hb
      · rw [if_neg h2] at hb
        by_cases h3 : (db.leaves.any (fun l =>
            l.userId == userId && l.organizationId == organizationId
              && (l.status == .pending || l.status == .approved)
              && l.startDate.toMs ≤ (startOfDay endDate).toMs
              && (startOfDay startDate).toMs ≤ l.endDate.toMs)) = true
        · rw [if_pos h3] at hb
          exact Or.inl hb
        · rw [if_neg h3] at hb
          rcases hgc : getOrCreateLeaveBalance db.balances userId
              (yearOfDay (startOfDay startDate).day) organizationId with ⟨balances1, balance⟩
          simp only [hgc] at hb
          have hb1 : b ∈ balances1 := by
            by_cases h4 : (!checkBalance balance leaveType
                ((leaveCalculateWorkingDays (startOfDay startDate).day
                  (startOfDay endDate).day : ℕ) : ℚ)) = true
            · rw [if_pos h4] at hb
              exact hb
            · rw [if_neg h4] at hb
              exact hb
          have : b ∈ (getOrCreateLeaveBalance db.balances userId
              (yearOfDay (startOfDay startDate).day) organizationId).1 := by
            rw [hgc]
            exact hb1
          exact goc _ _ _ _ b this

/-- Witness for C9: after approving the pending three-weekday leave on an
empty balance store, the single stored balance is the hooked bumped row, and
it satisfies `remaining = total - used`. -/
theorem claim9_balance_invariant_witness :
    (approveLeave dbWithPendingLeave "L1" "rev" none 0).2.balances =
      [leaveBalanceSaveHook (bumpBalance
        (leaveBalanceSaveHook (defaultLeaveBalance "u1" 2025 "o")) .sick 3)] ∧
    (leaveBalanceSaveHook (bumpBalance
        (leaveBalanceSaveHook (defaultLeaveBalance "u1" 2025 "o")) .sick 3)
        ∈ dbWithPendingLeave.balances ∨
      balancedBuckets (leaveBalanceSaveHook (bumpBalance
        (leaveBalanceSaveHook (defaultLeaveBalance "u1" 2025 "o")) .sick 3))) := by
  have heq : (approveLeave dbWithPendingLeave "L1" "rev" none 0).2.balances =
      [leaveBalanceSaveHook (bumpBalance
        (leaveBalanceSaveHook (defaultLeaveBalance "u1" 2025 "o")) .sick 3)] := rfl
  refine ⟨heq, ?_⟩
  exact claim9_balance_invariant.2.2.1 dbWithPendingLeave "L1" "rev" none 0 _
    (by rw [heq]; exact List.mem_singleton.mpr rfl)

/-- C4 (code bug).  Approving the pending three-weekday leave on a store
with no attendance rows does not upsert `OnLeave` rows as the claim states:
`Attendance.create` is called without the schema-required `organizationId`,
so its validation rejects the insert and `approveLeave` throws — after the
balance was already debited and persisted, with the leave still Pending and
no attendance written.  When rows do pre-exist, the in-place update sets
`status = OnLeave` but leaves a prior `isApproved = false` unchanged,
against the claim's `isApproved = true`. -/
theorem claim4_approve_leave_attendance_bug :
    (approveLeave dbWithPendingLeave "L1" "rev" none 0).1 =
      .error .requiredOrganizationIdMissing ∧
    ((approveLeave dbWithPendingLeave "L1" "rev" none 0).2.leaves.map
      (fun l => l.status)) = [.pending] ∧
    (approveLeave dbWithPendingLeave "L1" "rev" none 0).2.attendance = [] ∧
    (approveLeave dbWithPendingLeave "L1" "rev" none 0).2.balances =
      [leaveBalanceSaveHook (bumpBalance
        (leaveBalanceSaveHook (defaultLeaveBalance "u1" 2025 "o")) .sick 3)] ∧
    (approveLeave dbWithPendingLeaveAndAttendance "L1" "rev" none 0).1 =
      .ok { pendingLeaveJan with
            status := .approved, reviewedBy := some "rev",
            reviewedAt := some 0, reviewNotes := none } ∧
    ((approveLeave dbWithPendingLeaveAndAttendance "L1" "rev" none 0).2.attendance.map
      (fun a => (a.status, a.isApproved))) =
      [(.on_leave, false), (.on_leave, false), (.on_leave, false)] :=
  ⟨rfl, rfl, rfl, rfl, rfl, rfl⟩

/-- C10 counterexample.  In a period with zero working days, an employee
with an active structure and user and no attendance or leave is neither
skipped nor flagged as a computation error: the loop yields a normal
Pending record with the full, unprorated base salary (its `absentDays` is
0, so the claim's `absentDays > 0` guard condition is not even
satisfiable). -/
theorem claim10_zero_workingDays_counterexample :
    processEmployeeStep zeroDayUsers "R" 1 2025 0 zeroDayStructure [] [] ≠ none ∧
    (processEmployeeStep zeroDayUsers "R" 1 2025 0 zeroDayStructure [] []).map
      (fun r => r.baseSalary) = some 3000 ∧
    (processEmployeeStep zeroDayUsers "R" 1 2025 0 zeroDayStructure [] []).map
      (fun r => r.absentDays) = some 0 ∧
    (processEmployeeStep zeroDayUsers "R" 1 2025 0 zeroDayStructure [] []).map
      (fun r => r.status) = some .pending := by
  have hstep : processEmployeeStep zeroDayUsers "R" 1 2025 0 zeroDayStructure [] [] =
      some (computeEmployeeRecord "R" 1 2025 0 zeroDayStructure [] []) := rfl
  have hA : attendanceDaysFor [] zeroDayStructure.organizationId
      zeroDayStructure.userId 2025 1 = 0 := rfl
  have hL : leaveDaysFor [] zeroDayStructure.organizationId
      zeroDayStructure.userId 2025 1 = 0 := rfl
  refine ⟨by rw [hstep]; simp, ?_, ?_, ?_⟩
  · rw [hstep, Option.map_some', Option.some.injEq, computeEmployeeRecord_baseSalary,
      hA, hL]
    norm_num [zeroDayStructure]
  · rw [hstep, Option.map_some', Option.some.injEq, computeEmployeeRecord_absentDays,
      hA, hL]
    norm_num
  · rw [hstep]
    rfl

/-- C10 amended.  `processPayrollRun` has no explicit `workingDays == 0`
guard; instead, when `workingDays = 0` and the stored leaves have
non-negative `totalDays` (the schema requires `totalDays ≥ 0.5`),
`absentDays = -(attendanceDays + leaveDays) ≤ 0`, so the proration branch is
not entered, the division by zero is never performed, and the employee gets
a normal record with the unprorated base salary. -/
theorem claim10_zero_workingDays_amended (runId : String) (month : ℕ) (year : ℤ)
    (s : SalaryStructureRow) (att : List AttendanceRow) (leaves : List LeaveRow)
    (h : ∀ l ∈ leaves, 0 ≤ l.totalDays) :
    (computeEmployeeRecord runId month year 0 s att leaves).absentDays ≤ 0 ∧
    (computeEmployeeRecord runId month year 0 s att leaves).baseSalary = s.baseSalary := by
  have hld : 0 ≤ leaveDaysFor leaves s.organizationId s.userId year month := by
    unfold leaveDaysFor
    refine List.sum_nonneg ?_
    intro x hx
    rcases List.mem_map.mp hx with ⟨l, hl, he⟩
    exact he ▸ h l (List.mem_filter.mp hl).1
  have hatt : (0 : ℚ) ≤ (attendanceDaysFor att s.organizationId s.userId year month : ℚ) :=
    Nat.cast_nonneg _
  have habs : (0 : ℚ) -
      ((attendanceDaysFor att s.organizationId s.userId year month : ℚ) +
        leaveDaysFor leaves s.organizationId s.userId year month) ≤ 0 := by
    linarith
  constructor
  · rw [computeEmployeeRecord_absentDays]
    simpa using habs
  · rw [computeEmployeeRecord_baseSalary]
    rw [if_neg]
    simp only [Nat.cast_zero]
    exact not_lt.mpr habs

/-- Witness for C10's amended statement at a concrete input. -/
theorem claim10_zero_workingDays_amended_witness :
    (∀ l ∈ ([] : List LeaveRow), 0 ≤ l.totalDays) ∧
    ((computeEmployeeRecord "R" 1 2025 0 zeroDayStructure [] []).absentDays ≤ 0 ∧
     (computeEmployeeRecord "R" 1 2025 0 zeroDayStructure [] []).baseSalary =
       zeroDayStructure.baseSalary) :=
  ⟨by simp, claim10_zero_workingDays_amended "R" 1 2025 zeroDayStructure [] [] (by simp)⟩

/-- Witness for C2 at the spec's worked example. -/
theorem claim2_attendance_leave_proration_witness :
    (∀ a ∈ exampleAttendance, a.date.valid) ∧
    (computeEmployeeRecord "R" 1 2025 20 exampleStructure exampleAttendance []).daysWorked =
      (attendanceDaysSpec exampleAttendance exampleStructure.organizationId
          exampleStructure.userId 2025 1 : ℚ) +
        leaveDaysSpec [] exampleStructure.organizationId exampleStructure.userId 2025 1 :=
  ⟨by decide, (claim2_attendance_leave_proration.1 "R" 1 2025 20 exampleStructure
      exampleAttendance [] (by decide) (by simp)).2.1⟩

/-- Counting a disjoint disjunction splits into the two counts. -/
theorem countP_or_of_disjoint {α : Type} (l : List α) (p q : α → Bool)
    (h : ∀ a ∈ l, ¬(p a = true ∧ q a = true)) :
    l.countP (fun a => p a || q a) = l.countP p + l.countP q := by
  induction l with
  | nil => simp
  | cons a t ih =>
    have ha := h a (by simp)
    have ht : ∀ x ∈ t, ¬(p x = true ∧ q x = true) := fun x hx => h x (by simp [hx])
    have ih2 := ih ht
    rcases hp : p a
    · rcases hq : q a
      · simp [List.countP_cons, hp, hq, ih2]
      · simp only [List.countP_cons, hp, hq, ih2]
        simp
        omega
    · rcases hq : q a
      · simp only [List.countP_cons, hp, hq, ih2]
        simp
        omega
      · exact absurd ⟨hp, hq⟩ ha

/-- Counting a predicate and its negation covers the list. -/
theorem countP_bnot_add {α : Type} (l : List α) (p : α → Bool) :
    l.countP (fun a => !(p a)) + l.countP p = l.length := by
  induction l with
  | nil => simp
  | cons a t ih =>
    rcases hp : p a <;> simp [List.countP_cons, hp] <;> omega

/-- Shows `daysFromCivil` is linear in the day-of-month argument. -/
theorem daysFromCivil_day (y : ℤ) (m d : ℕ) :
    daysFromCivil y m d = daysFromCivil y m 1 + ((d : ℤ) - 1) := by
  simp only [daysFromCivil]
  push_cast
  ring

/-- The day interval has `e + 1 - s` entries. -/
theorem eachDayOfInterval_length (s e : ℤ) :
    (eachDayOfInterval s e).length = (e + 1 - s).toNat := by
  rw [eachDayOfInterval, List.length_map, List.length_range]

/-- The enumerated month has `daysInMonth` days. -/
theorem monthDays_length (y : ℤ) (m : ℕ) :
    (monthDays y m).length = daysInMonth y m := by
  rw [monthDays, eachDayOfInterval_length, daysFromCivil_day y m (daysInMonth y m)]
  omega

/-- The holiday rows fetched by the timestamp-range query are those whose
calendar date falls in the month, provided intra-day offsets are in range. -/
theorem holidayQuery_eq_spec (coll : List HolidayRow) (organizationId : String)
    (y : ℤ) (m : ℕ) (hv : ∀ h ∈ coll, h.date.valid) :
    coll.filter (holidayInMonthQuery organizationId y m) =
      coll.filter (fun h => h.organizationId == organizationId && inMonthSpec y m h.date) := by
  refine List.filter_congr ?_
  intro h hmem
  have h1 := (dayStart_toMs_le (s := daysFromCivil y m 1) (hv h hmem))
  have h2 := (toMs_le_dayEnd (e := daysFromCivil y m (daysInMonth y m)) (hv h hmem))
  rw [Bool.eq_iff_iff]
  simp only [holidayInMonthQuery, inMonthSpec, monthStartTs, monthEndTs,
    Bool.and_eq_true, decide_eq_true_eq]
  rw [h1, h2]
  tauto

/-- C8.  `calculateWorkingDays` counts the days of the month that are
neither Saturday nor Sunday nor, by calendar date, an organization holiday
of the month; and when no such holiday date is a weekend, the count plus
the weekend days plus the holiday dates equals the number of days in the
month. -/
theorem claim8_working_days (month : ℕ) (year : ℤ) (organizationId : String)
    (coll : List HolidayRow) (hm : 1 ≤ month ∧ month ≤ 12)
    (hv : ∀ h ∈ coll, h.date.valid) :
    payrollCalculateWorkingDays month year organizationId coll =
      workingDaysSpec month year organizationId coll ∧
    ((∀ d ∈ holidayDaysSpec coll organizationId year month, ¬ isWeekendDay d = true) →
      payrollCalculateWorkingDays month year organizationId coll +
        weekendCount year month + holidaysInMonthCount coll organizationId year month =
        daysInMonth year month) := by
  have hq := holidayQuery_eq_spec coll organizationId year month hv
  have heq : payrollCalculateWorkingDays month year organizationId coll =
      workingDaysSpec month year organizationId coll := by
    simp only [payrollCalculateWorkingDays, workingDaysSpec, monthDays, holidayDaysSpec]
    rw [hq]
  refine ⟨heq, ?_⟩
  intro hw
  rw [heq]
  have hpred : (fun d => !isWeekendDay d &&
      !(holidayDaysSpec coll organizationId year month).contains d) =
      (fun d => !(isWeekendDay d ||
        (holidayDaysSpec coll organizationId year month).contains d)) := by
    funext d
    simp [Bool.not_or]
  have hdisj : ∀ d ∈ monthDays year month,
      ¬(isWeekendDay d = true ∧
        (holidayDaysSpec coll organizationId year month).contains d = true) := by
    rintro d _ ⟨hwd, hcd⟩
    have hd : d ∈ holidayDaysSpec coll organizationId year month := by
      simpa using hcd
    exact hw d hd hwd
  calc workingDaysSpec month year organizationId coll +
        weekendCount year month + holidaysInMonthCount coll organizationId year month
      = (monthDays year month).countP (fun d => !(isWeekendDay d ||
          (holidayDaysSpec coll organizationId year month).contains d)) +
        ((monthDays year month).countP (fun d => isWeekendDay d) +
          (monthDays year month).countP (fun d =>
            (holidayDaysSpec coll organizationId year month).contains d)) := by
        rw [workingDaysSpec, ← List.countP_eq_length_filter, hpred,
          weekendCount, holidaysInMonthCount]
        ring
    _ = (monthDays year month).countP (fun d => !(isWeekendDay d ||
          (holidayDaysSpec coll organizationId year month).contains d)) +
        (monthDays year month).countP (fun d => isWeekendDay d ||
          (holidayDaysSpec coll organizationId year month).contains d) := by
        rw [countP_or_of_disjoint _ _ _ hdisj]
    _ = (monthDays year month).length := countP_bnot_add _ _
    _ = daysInMonth year month := monthDays_length year month

/-- Witness for C8: January 2025 with New Year's Day as the only holiday
has 22 working days, 8 weekend days and 1 holiday, summing to 31. -/
theorem claim8_working_days_witness :
    payrollCalculateWorkingDays 1 2025 "o" exampleHolidays = 22 ∧
    payrollCalculateWorkingDays 1 2025 "o" exampleHolidays =
      workingDaysSpec 1 2025 "o" exampleHolidays ∧
    payrollCalculateWorkingDays 1 2025 "o" exampleHolidays +
      weekendCount 2025 1 + holidaysInMonthCount exampleHolidays "o" 2025 1 =
      daysInMonth 2025 1 := by
  have h := claim8_working_days 1 2025 "o" exampleHolidays (by decide) (by decide)
  exact ⟨by decide, h.1, h.2 (by decide)⟩

end Attendease
